import Mathlib

/-!
Shallow embedding of the firewall-attacks-analysis repository.

Numeric code is embedded over exact arithmetic: pure rational computations
(color gradients, aggregation, configuration overlay) over `ℚ`, and the
sqrt/log scaling functions over `ℝ` with `Real.sqrt` / `Real.log`.
Python dictionaries are embedded as association lists; the nested
(mutable, aliasable) section dictionaries of the preset registry are
embedded with an explicit heap of numbered cells, so that the sharing
created by Python's shallow `dict.copy()` is visible.
-/

namespace FW

/-! ## src/graph/styling.py -/

/-- `scale_linear` from src/graph/styling.py: affine interpolation of `val`'s
position in `[min_val, max_val]` onto `[target_min, target_max]`; returns
`target_min` when the domain is degenerate. -/
noncomputable def scale_linear (val min_val max_val target_min target_max : ℝ) : ℝ :=
  if max_val = min_val then target_min
  else target_min + (val - min_val) / (max_val - min_val) * (target_max - target_min)

/-- `np.log1p` as used by src/graph/styling.py. -/
noncomputable def log1p (x : ℝ) : ℝ := Real.log (1 + x)

/-- `scale_log_range` from src/graph/styling.py: the same interpolation in
`log(1+x)` space. -/
noncomputable def scale_log_range (val min_val max_val target_min target_max : ℝ) : ℝ :=
  if max_val = min_val then target_min
  else
    target_min + (log1p val - log1p min_val) / (log1p max_val - log1p min_val)
      * (target_max - target_min)

/-- `scale_sqrt` from src/graph/styling.py: the same interpolation in
square-root space. -/
noncomputable def scale_sqrt (val min_val max_val target_min target_max : ℝ) : ℝ :=
  if max_val = min_val then target_min
  else
    target_min + (Real.sqrt val - Real.sqrt min_val) / (Real.sqrt max_val - Real.sqrt min_val)
      * (target_max - target_min)

/-- Python `int(x)`: truncation toward zero. -/
def pyInt (q : ℚ) : ℤ := if q < 0 then ⌈q⌉ else ⌊q⌋

/-- Python `f'{n:02x}'` for a nonnegative integer: lowercase hex digits,
left-padded with zeros to width 2. -/
def pyHex02 (n : ℤ) : String :=
  let s := Nat.toDigits 16 n.toNat
  String.mk (List.replicate (2 - s.length) '0' ++ s)

/-- Round to nearest integer, ties to even (the integer rounding used by
IEEE 754 round-to-nearest-even on an exact significand). -/
def rne (x : ℚ) : ℤ :=
  if x - ⌊x⌋ < 1/2 then ⌊x⌋
  else if (1:ℚ)/2 < x - ⌊x⌋ then ⌊x⌋ + 1
  else if 2 ∣ ⌊x⌋ then ⌊x⌋ else ⌊x⌋ + 1

/-- IEEE binary64 rounding (round to nearest, ties to even) of an exact
rational: scale into `[2^52, 2^53)`, round the significand, scale back.
Every arithmetic result of the Python float code is passed through this.
(Overflow/subnormal behaviour is irrelevant at the magnitudes involved.) -/
def round64 (q : ℚ) : ℚ :=
  if q = 0 then 0
  else
    let e : ℤ := Int.log 2 |q| - 52
    (rne (q / 2 ^ e) : ℚ) * 2 ^ e

/-- The binary64 value of the Python literal `0.33`
(= 0.33000000000000001554312234475219249725341796875). -/
def d033 : ℚ := 5944751508129055 / 2 ^ 54

/-- The binary64 value of the Python literal `0.67`
(= 0.67000000000000003996802888650563545525074005126953125). -/
def d067 : ℚ := 6034823500676465 / 2 ^ 53

/-- The binary64 value of the Python literal `0.34`
(= 0.34000000000000002442490654175344388838857412338256835938). -/
def d034 : ℚ := 6124895493223875 / 2 ^ 54

/-- `get_smooth_gradient` from src/graph/styling.py: continuous RGB
interpolation across the stops green (46,204,113), yellow (241,196,15),
orange (230,126,34), red (231,76,60); fixed green on a degenerate range.
The source computes in IEEE doubles: every float operation rounds through
`round64`, the float literals are their binary64 values, and the stop-color
differences such as `(241 - 46)` are exact Python `int` arithmetic. -/
def get_smooth_gradient (value min_val max_val : ℚ) : String :=
  if max_val = min_val then "#2ecc71"
  else
    let ratio := round64 (round64 (value - min_val) / round64 (max_val - min_val))
    let rgb : ℤ × ℤ × ℤ :=
      if ratio < d033 then
        let local_ratio := round64 (ratio / d033)
        (pyInt (round64 (46 + round64 ((241 - 46) * local_ratio))),
         pyInt (round64 (204 + round64 ((196 - 204) * local_ratio))),
         pyInt (round64 (113 + round64 ((15 - 113) * local_ratio))))
      else if ratio < d067 then
        let local_ratio := round64 (round64 (ratio - d033) / d034)
        (pyInt (round64 (241 + round64 ((230 - 241) * local_ratio))),
         pyInt (round64 (196 + round64 ((126 - 196) * local_ratio))),
         pyInt (round64 (15 + round64 ((34 - 15) * local_ratio))))
      else
        let local_ratio := round64 (round64 (ratio - d067) / d033)
        (pyInt (round64 (230 + round64 ((231 - 230) * local_ratio))),
         pyInt (round64 (126 + round64 ((76 - 126) * local_ratio))),
         pyInt (round64 (34 + round64 ((60 - 34) * local_ratio))))
    "#" ++ pyHex02 rgb.1 ++ pyHex02 rgb.2.1 ++ pyHex02 rgb.2.2

/-- `get_color_gradient` from src/graph/styling.py: 3-color threshold
gradient from a `hits / max_hits` ratio. -/
def get_color_gradient (hits max_hits : ℚ) (thresholds : List ℚ) : String :=
  if max_hits = 0 then "#2ecc71"
  else
    let ratio := hits / max_hits
    let low_threshold := thresholds.getD 0 0
    let high_threshold := thresholds.getD 1 0
    if ratio < low_threshold then "#2ecc71"
    else if ratio < high_threshold then "#f39c12"
    else "#e74c3c"

/-- `get_heatmap_color` from src/graph/styling.py: 4-color threshold
heatmap from a `value / max_val` ratio. -/
def get_heatmap_color (value max_val : ℚ) (thresholds : List ℚ) : String :=
  if max_val = 0 then "#2ecc71"
  else
    let ratio := value / max_val
    if ratio < thresholds.getD 0 0 then "#2ecc71"
    else if ratio < thresholds.getD 1 0 then "#f1c40f"
    else if ratio < thresholds.getD 2 0 then "#e67e22"
    else "#e74c3c"

/-! ## Python dictionaries and the section heap

Top-level preset dictionaries are association lists whose values are
either primitives, lists of numbers, or references into a heap of
"section" dictionaries (the nested `theme` / `physics` /
`hostname_labels` dicts).  A Python shallow `dict.copy()` copies the
association list but shares the referenced heap cells, which is exactly
how the source aliases them. -/

/-- A primitive YAML/Python value stored inside a section dictionary. -/
inductive Val where
  | str : String → Val
  | num : ℚ → Val
  | bool : Bool → Val
deriving DecidableEq, Repr

/-- A nested (heap-allocated) dictionary: `theme`, `physics`, `hostname_labels`. -/
abbrev Sect := List (String × Val)

/-- A value of a top-level preset dictionary. -/
inductive TopVal where
  | prim : Val → TopVal
  | numList : List ℚ → TopVal
  | ref : ℕ → TopVal
deriving DecidableEq, Repr

/-- A top-level preset dictionary. -/
abbrev TopDict := List (String × TopVal)

/-- `d[k] = v` on a Python dict: replace the first binding of `k`, or append. -/
def dictSet {κ : Type} [DecidableEq κ] {α : Type} :
    List (κ × α) → κ → α → List (κ × α)
  | [], k, v => [(k, v)]
  | (k', v') :: rest, k, v =>
      if k' = k then (k, v) :: rest else (k', v') :: dictSet rest k v

/-- `d.get(k)` on a Python dict. -/
def dictGet {κ : Type} [DecidableEq κ] {α : Type} :
    List (κ × α) → κ → Option α
  | [], _ => none
  | (k', v') :: rest, k => if k' = k then some v' else dictGet rest k

/-- `d.update(src)` on a Python dict: assign every binding of `src` in order. -/
def dictUpdate {κ : Type} [DecidableEq κ] {α : Type}
    (d src : List (κ × α)) : List (κ × α) :=
  src.foldl (fun acc p => dictSet acc p.1 p.2) d

/-- The heap of nested section dictionaries. -/
structure Heap where
  store : List (ℕ × Sect)
  next : ℕ
deriving DecidableEq, Repr

/-- Read the section at address `a`. -/
def Heap.get (h : Heap) (a : ℕ) : Sect := (dictGet h.store a).getD []

/-- Overwrite the section at address `a`. -/
def Heap.set (h : Heap) (a : ℕ) (s : Sect) : Heap := ⟨dictSet h.store a s, h.next⟩

/-- Allocate a fresh section (`config[key] = {}` in Python). -/
def Heap.alloc (h : Heap) (s : Sect) : Heap × ℕ :=
  (⟨dictSet h.store h.next s, h.next + 1⟩, h.next)

/-- In-place `d.update(src)` on the section at address `a`. -/
def Heap.updateAt (h : Heap) (a : ℕ) (src : Sect) : Heap :=
  h.set a (dictUpdate (h.get a) src)

/-! ## src/config/presets.py — the registry

Each preset's `theme` and `physics` dicts live at fixed heap addresses of
`initHeap`; the top-level dictionaries hold references to them. -/

/-- `PRESETS['intensity']` (theme at address 0, physics at address 1). -/
def intensityPreset : TopDict :=
  [("name", .prim (.str "Intensity Map")),
   ("description", .prim (.str "Balanced visualization with intensity-based coloring")),
   ("default_output", .prim (.str "firewall_intensity_map.html")),
   ("top_n", .prim (.num 400)),
   ("node_sizing", .prim (.str "combined")),
   ("node_size_range", .numList [3, 15]),
   ("edge_width_range", .numList [1, 6]),
   ("edge_scale_method", .prim (.str "sqrt_simple")),
   ("color_mode", .prim (.str "gradient")),
   ("color_thresholds", .numList [0.2, 0.6]),
   ("theme", .ref 0),
   ("physics", .ref 1)]

/-- `PRESETS['heatmap']` (theme at address 2, physics at address 3). -/
def heatmapPreset : TopDict :=
  [("name", .prim (.str "Security Heatmap")),
   ("description", .prim (.str "Advanced heatmap with color-coded nodes by intensity")),
   ("default_output", .prim (.str "firewall_security_heatmap.html")),
   ("top_n", .prim (.num 350)),
   ("node_sizing", .prim (.str "separate")),
   ("node_size_range", .numList [3, 14]),
   ("target_size_range", .numList [4, 15]),
   ("node_scale_method", .prim (.str "linear")),
   ("edge_width_range", .numList [1, 7]),
   ("edge_scale_method", .prim (.str "linear")),
   ("color_mode", .prim (.str "heatmap")),
   ("color_thresholds", .numList [0.15, 0.4, 0.7]),
   ("theme", .ref 2),
   ("physics", .ref 3)]

/-- `PRESETS['micro']` (theme at address 4, physics at address 5). -/
def microPreset : TopDict :=
  [("name", .prim (.str "Micro-Scale Heatmap")),
   ("description", .prim (.str "Compact visualization with micro-scale nodes for high-density data")),
   ("default_output", .prim (.str "firewall_micro_map.html")),
   ("top_n", .prim (.num 400)),
   ("node_sizing", .prim (.str "separate")),
   ("node_size_range", .numList [2, 8]),
   ("target_size_range", .numList [6, 6]),
   ("node_scale_method", .prim (.str "sqrt")),
   ("label_threshold", .prim (.num 0.1)),
   ("edge_width_range", .numList [0.5, 4]),
   ("edge_scale_method", .prim (.str "linear")),
   ("edge_opacity", .prim (.num 0.4)),
   ("color_mode", .prim (.str "heatmap")),
   ("color_thresholds", .numList [0.2, 0.5, 0.8]),
   ("theme", .ref 4),
   ("physics", .ref 5)]

/-- `PRESETS['balanced']` (theme at address 6, physics at address 7). -/
def balancedPreset : TopDict :=
  [("name", .prim (.str "Balanced Clean Map")),
   ("description", .prim (.str "Clean readable version with balanced sizing and spacing")),
   ("default_output", .prim (.str "firewall_balanced_map.html")),
   ("top_n", .prim (.num 350)),
   ("node_sizing", .prim (.str "combined")),
   ("node_size_range", .numList [3, 12]),
   ("edge_width_range", .numList [1, 6]),
   ("edge_scale_method", .prim (.str "linear")),
   ("color_mode", .prim (.str "gradient")),
   ("color_thresholds", .numList [0.2, 0.6]),
   ("theme", .ref 6),
   ("physics", .ref 7)]

/-- The nested section dictionaries of the four registry presets. -/
def initHeap : Heap :=
  ⟨[(0, [("height", .str "900px"), ("width", .str "100%"),
         ("bgcolor", .str "#0b0e11"), ("font_color", .str "white")]),
    (1, [("gravitational_constant", .num (-20000)), ("central_gravity", .num 0.8),
         ("spring_length", .num 100), ("edge_smooth", .bool false),
         ("arrow_scale", .num 0.4), ("stabilization_iterations", .num 40)]),
    (2, [("height", .str "950px"), ("width", .str "100%"),
         ("bgcolor", .str "#0d1117"), ("font_color", .str "#f0f6fc")]),
    (3, [("gravitational_constant", .num (-40000)), ("central_gravity", .num 0.5),
         ("spring_length", .num 180), ("spring_constant", .num 0.05),
         ("damping", .num 0.4), ("edge_smooth", .bool false),
         ("arrow_scale", .num 0.4), ("stabilization_iterations", .num 60)]),
    (4, [("height", .str "1280px"), ("width", .str "100%"),
         ("bgcolor", .str "#ffffff"), ("font_color", .str "#8b949e")]),
    (5, [("gravitational_constant", .num (-50000)), ("central_gravity", .num 0.3),
         ("spring_length", .num 200), ("spring_constant", .num 0.05),
         ("damping", .num 0.5), ("edge_smooth", .bool false),
         ("arrow_scale", .num 0.2), ("stabilization_iterations", .num 50)]),
    (6, [("height", .str "900px"), ("width", .str "100%"),
         ("bgcolor", .str "#111111"), ("font_color", .str "#ecf0f1")]),
    (7, [("gravitational_constant", .num (-30000)), ("central_gravity", .num 0.3),
         ("spring_length", .num 150), ("spring_constant", .num 0.05),
         ("damping", .num 0.3), ("edge_smooth", .bool false),
         ("arrow_scale", .num 0.3), ("stabilization_iterations", .num 50)])],
   8⟩

/-- The `PRESETS` registry mapping names to their (shared) top-level dicts. -/
def PRESETS : List (String × TopDict) :=
  [("intensity", intensityPreset), ("heatmap", heatmapPreset),
   ("micro", microPreset), ("balanced", balancedPreset)]

/-- `get_preset` from src/config/presets.py: returns a shallow copy of the
registry entry (the association list is copied by value here, and the
heap references inside it stay shared, exactly like `dict.copy()`). -/
def get_preset (name : String) : Except String TopDict :=
  match dictGet PRESETS name with
  | some d => .ok d
  | none => .error ("Unknown preset " ++ name)

/-! ## src/config/config_loader.py — the global-settings overlay -/

/-- The loaded `config.yaml` contents, with `none` meaning the key is absent
(Python `'key' in self.config` is presence of the `Option`). -/
structure GlobalConfig where
  node_size_multiplier : Option ℚ := none
  edge_width_multiplier : Option ℚ := none
  presets : Option (List (String × TopDict)) := none
  physics : Option Sect := none
  theme : Option Sect := none
  canvas : Option Sect := none
  node_settings : Option TopDict := none
  edge_settings : Option TopDict := none
  hostname_labels : Option Sect := none

/-- `get_node_size_multiplier`: `self.config.get('node_size_multiplier', 1.0)`. -/
def GlobalConfig.get_node_size_multiplier (g : GlobalConfig) : ℚ :=
  g.node_size_multiplier.getD 1

/-- `get_edge_width_multiplier`: `self.config.get('edge_width_multiplier', 1.0)`. -/
def GlobalConfig.get_edge_width_multiplier (g : GlobalConfig) : ℚ :=
  g.edge_width_multiplier.getD 1

/-- Rewrite the numeric-list value under `key` through `f` (the Python
list comprehension assigned back to the same key); a non-list value would
raise in Python and is left untouched (unreachable for registry data). -/
def mulRangeKey (key : String) (f : ℚ → ℚ) (c : TopDict) : TopDict :=
  match dictGet c key with
  | some (.numList l) => dictSet c key (.numList (l.map f))
  | _ => c

/-- Size-range multiplication with the `max(1, size * node_mult)` clamp,
applied by `apply_to_preset` to `node_size_range` and `target_size_range`. -/
def stepNodeMult (m : ℚ) (c : TopDict) : TopDict :=
  mulRangeKey "target_size_range" (fun size => max 1 (size * m))
    (mulRangeKey "node_size_range" (fun size => max 1 (size * m)) c)

/-- `edge_width_range` multiplication (no clamp). -/
def stepEdgeMult (m : ℚ) (c : TopDict) : TopDict :=
  mulRangeKey "edge_width_range" (fun width => width * m) c

/-- `preset_config.get('name', '').lower().replace(' ', '_')`. -/
def normalizeName (c : TopDict) : String :=
  match dictGet c "name" with
  | some (.prim (.str s)) => (s.toLower.toList.map fun ch => if ch = ' ' then '_' else ch) |> String.mk
  | _ => ""

/-- Is `a` an infix of `b`? -/
def isInfixList (a : List Char) : List Char → Bool
  | [] => a.isEmpty
  | c :: bs => a.isPrefixOf (c :: bs) || isInfixList a bs

/-- `a in b` on Python strings (substring test). -/
def strIn (a b : String) : Bool := isInfixList a.toList b.toList

/-- The preset-override loop: the first override key that is one of the
known preset keys and matches the normalized name as a substring (in
either direction) is shallow-merged onto the config; then `break`. -/
def stepPresetOverride (g : GlobalConfig) (preset0 : TopDict) (c : TopDict) : TopDict :=
  let preset_overrides := g.presets.getD []
  let preset_name := normalizeName preset0
  match preset_overrides.find? (fun p =>
      ["intensity", "heatmap", "micro", "balanced"].contains p.1 &&
      (strIn p.1 preset_name || strIn preset_name p.1)) with
  | some p => dictUpdate c p.2
  | none => c

/-- The shared shape of the `physics` / `theme` / `hostname_labels` merge:
`if key not in config: config[key] = {}` then `config[key].update(section)`.
When the preset already holds a reference, the *referenced heap cell* is
updated in place (this is the aliasing of Python's shallow copies); a
non-dict value under the key would raise in Python and is left untouched
here (unreachable for registry data). -/
def stepSection (key : String) (gsect : Option Sect) (c : TopDict) (h : Heap) :
    TopDict × Heap :=
  match gsect with
  | none => (c, h)
  | some sect =>
    match dictGet c key with
    | some (.ref a) => (c, h.updateAt a sect)
    | some _ => (c, h)
    | none =>
        let (h1, a) := h.alloc []
        (dictSet c key (.ref a), h1.updateAt a sect)

/-- The canvas overrides: `config['theme']['height'] = canvas['height']`
(and width), writing through the theme reference. -/
def stepCanvas (g : GlobalConfig) (c : TopDict) (h : Heap) : TopDict × Heap :=
  match g.canvas with
  | none => (c, h)
  | some canvas =>
    let (c1, h1, addr) :=
      match dictGet c "theme" with
      | some (.ref a) => (c, h, some a)
      | some _ => (c, h, none)
      | none =>
          let (h', a) := h.alloc []
          (dictSet c "theme" (.ref a), h', some a)
    match addr with
    | none => (c1, h1)
    | some a =>
      let h2 :=
        match dictGet canvas "height" with
        | some v => h1.set a (dictSet (h1.get a) "height" v)
        | none => h1
      let h3 :=
        match dictGet canvas "width" with
        | some v => h2.set a (dictSet (h2.get a) "width" v)
        | none => h2
      (c1, h3)

/-- `if ov given and key not in config: config[key] = ov` (the low-priority
global defaults). -/
def fillIfAbsent (key : String) (ov : Option TopVal) (c : TopDict) : TopDict :=
  match ov, dictGet c key with
  | some v, none => dictSet c key v
  | _, _ => c

/-- `if ov given: config[key] = ov` (the always-override keys). -/
def setIfPresent (key : String) (ov : Option TopVal) (c : TopDict) : TopDict :=
  match ov with
  | some v => dictSet c key v
  | none => c

/-- The node-settings defaults: `default_size_range` only fills a missing
`node_size_range`. -/
def stepNodeSettings (g : GlobalConfig) (c : TopDict) : TopDict :=
  match g.node_settings with
  | none => c
  | some ns =>
    if ns ≠ [] then fillIfAbsent "node_size_range" (dictGet ns "default_size_range") c
    else c

/-- The edge-settings defaults: width range and opacity only fill missing
keys; `scale_arrows_with_edges` and `base_arrow_scale` always override. -/
def stepEdgeSettings (g : GlobalConfig) (c : TopDict) : TopDict :=
  match g.edge_settings with
  | none => c
  | some es =>
    if es ≠ [] then
      setIfPresent "base_arrow_scale" (dictGet es "base_arrow_scale")
        (setIfPresent "scale_arrows_with_edges" (dictGet es "scale_arrows_with_edges")
          (fillIfAbsent "edge_opacity" (dictGet es "opacity")
            (fillIfAbsent "edge_width_range" (dictGet es "default_width_range") c)))
    else c

/-- `ConfigLoader.apply_to_preset` from src/config/config_loader.py.
The top-level dict is copied (`preset_config.copy()` — here, plain value
passing of the association list), and the heap carries the shared nested
sections, which the later steps mutate in place. -/
def apply_to_preset (g : GlobalConfig) (preset_config : TopDict) (h : Heap) :
    TopDict × Heap :=
  let c1 := stepNodeMult g.get_node_size_multiplier preset_config
  let c2 := stepEdgeMult g.get_edge_width_multiplier c1
  let c3 := stepPresetOverride g preset_config c2
  let r4 := stepSection "physics" g.physics c3 h
  let r5 := stepSection "theme" g.theme r4.1 r4.2
  let r6 := stepCanvas g r5.1 r5.2
  let c7 := stepNodeSettings g r6.1
  let c8 := stepEdgeSettings g c7
  stepSection "hostname_labels" g.hostname_labels c8 r6.2

/-! ## src/core/data_processor.py — aggregation -/

/-- One cleaned dataframe row (columns Source IP, Destination IP, Hits,
Source Country, Classification; `Hits` already coerced to numeric). -/
structure Row where
  src : String
  dst : String
  hits : ℚ
  country : String
  classif : String
deriving DecidableEq, Repr

/-- The `(Source IP, Destination IP)` group key of a row. -/
def aggKey (r : Row) : String × String := (r.src, r.dst)

/-- Sum of `Hits` over the rows of a group (`groupby(...).agg(Hits: sum)`). -/
def groupHits (rows : List Row) (k : String × String) : ℚ :=
  ((rows.filter fun r => aggKey r = k).map (·.hits)).sum

/-- The first row of a group (`agg 'first'` for country / classification).
A group drawn from `rows` is never empty, so the fallback row is inert. -/
def firstInGroup (rows : List Row) (k : String × String) : Row :=
  ((rows.filter fun r => aggKey r = k).head?).getD ⟨k.1, k.2, 0, "", ""⟩

/-- `Ord`-based comparison used only to mirror pandas' sorted group keys. -/
def pairLeB (a b : String × String) : Bool :=
  match compare a.1 b.1 with
  | .lt => true
  | .gt => false
  | .eq => compare a.2 b.2 ≠ Ordering.gt

/-- `pairLeB` as a decidable relation for `List.insertionSort`. -/
def pairLe (a b : String × String) : Prop := pairLeB a b = true

instance : DecidableRel pairLe := fun a b => inferInstanceAs (Decidable (_ = true))

/-- Descending-hits order for `nlargest(top_n, 'Hits')` (a stable sort
followed by `take`, matching pandas' keep-first tie handling). -/
def hitsGe (a b : Row) : Prop := b.hits ≤ a.hits

instance : DecidableRel hitsGe := fun a b => inferInstanceAs (Decidable (b.hits ≤ a.hits))

instance : IsTrans Row hitsGe := ⟨fun _ _ _ h1 h2 => le_trans h2 h1⟩

instance : IsTotal Row hitsGe := ⟨fun a b => le_total b.hits a.hits⟩

/-- `FirewallDataProcessor.aggregate_for_visualization`: group by
`(Source IP, Destination IP)` (pandas sorts the group keys), sum hits,
keep first-seen country/classification, then `if top_n:` truncate to the
`top_n` largest hit sums.  Python's truthiness makes `top_n = 0` (like
`None`) skip the truncation. -/
def aggregate_for_visualization (rows : List Row) (top_n : Option ℕ) : List Row :=
  let keys := List.insertionSort pairLe ((rows.map aggKey).dedup)
  let aggregated := keys.map fun k =>
    { src := k.1, dst := k.2, hits := groupHits rows k,
      country := (firstInGroup rows k).country,
      classif := (firstInGroup rows k).classif : Row }
  match top_n with
  | none => aggregated
  | some n => if n = 0 then aggregated else (List.insertionSort hitsGe aggregated).take n

/-- The number of distinct `(Source IP, Destination IP)` pairs. -/
def distinctPairCount (rows : List Row) : ℕ := ((rows.map aggKey).dedup).length

/-! ## src/core/risk_reporter.py -/

/-- How often `s` occurs in `l` (`value_counts` of one label). -/
def countOccur (l : List String) (s : String) : ℕ := (l.filter fun x => x = s).length

/-- String comparison used to mirror pandas' sorted `mode()` result and
sorted group keys. -/
def strLe (a b : String) : Prop := compare a b ≠ Ordering.gt

instance : DecidableRel strLe := fun a b => inferInstanceAs (Decidable (compare a b ≠ Ordering.gt))

/-- `x.mode()[0] if not x.empty else "Misc"`: the smallest of the most
frequent values (pandas `mode` returns the tied maxima sorted ascending). -/
def modeFirst (l : List String) : String :=
  match l with
  | [] => "Misc"
  | _ =>
    let cands := l.dedup
    let m := (cands.map (countOccur l)).foldl max 0
    ((List.insertionSort strLe (cands.filter fun s => countOccur l s = m)).head?).getD "Misc"

/-- One row of the risk report. -/
structure RiskRow where
  src : String
  hits : ℚ
  dst_nunique : ℕ
  country : String
  classif : String
  risk_score : ℚ
deriving DecidableEq, Repr

/-- Total `Hits` of one source over the cleaned rows. -/
def totalHits (rows : List Row) (s : String) : ℚ :=
  ((rows.filter fun r => r.src = s).map (·.hits)).sum

/-- Number of distinct destination IPs of one source (`nunique`). -/
def uniqueDsts (rows : List Row) (s : String) : ℕ :=
  (((rows.filter fun r => r.src = s).map (·.dst)).dedup).length

/-- Descending-score order for `sort_values(by='Risk Score',
ascending=False)`. -/
def scoreGe (a b : RiskRow) : Prop := b.risk_score ≤ a.risk_score

instance : DecidableRel scoreGe :=
  fun a b => inferInstanceAs (Decidable (b.risk_score ≤ a.risk_score))

instance : IsTrans RiskRow scoreGe := ⟨fun _ _ _ h1 h2 => le_trans h2 h1⟩

instance : IsTotal RiskRow scoreGe := ⟨fun a b => le_total b.risk_score a.risk_score⟩

/-- `RiskReporter.generate_risk_report`: group the cleaned rows by
`Source IP` (pandas sorts the group keys), aggregate hits/`nunique`
destinations/first country/mode classification, score each group
`Hits + Destination IP * 10`, and sort descending by score. -/
def generate_risk_report (rows : List Row) : List RiskRow :=
  let keys := List.insertionSort strLe ((rows.map (·.src)).dedup)
  let report := keys.map fun s =>
    let grp := rows.filter fun r => r.src = s
    { src := s, hits := totalHits rows s, dst_nunique := uniqueDsts rows s,
      country := ((grp.head?).getD ⟨s, "", 0, "", ""⟩).country,
      classif := modeFirst (grp.map (·.classif)),
      risk_score := totalHits rows s + (uniqueDsts rows s : ℚ) * 10 : RiskRow }
  List.insertionSort scoreGe report

/-! ## src/graph/graph_builder.py -/

/-- The resolved preset keys the graph builder reads with `config.get`. -/
structure BuilderConfig where
  node_sizing : Option String := none
  node_size_range : Option (List ℚ) := none
  target_size_range : Option (List ℚ) := none
  node_scale_method : Option String := none
  label_threshold : Option ℚ := none
  edge_width_range : Option (List ℚ) := none
  edge_scale_method : Option String := none
  color_mode : Option String := none
  color_thresholds : Option (List ℚ) := none
  use_smooth_gradient : Option Bool := none
  scale_arrows_with_edges : Option Bool := none
  base_arrow_scale : Option ℚ := none
  edge_opacity : Option ℚ := none
  hostname_labels : Option Sect := none

/-- Attributes handed to `graph.add_node` (absent keyword = `none`). -/
structure NodeAttrs where
  label : String
  size : ℝ
  color : String
  title : String
  borderWidth : Option ℕ := none
  borderColor : Option String := none
  shape : Option String := none

/-- Attributes handed to `graph.add_edge`; `arrows_scaleFactor` models the
`arrows.to.scaleFactor` attribute when arrow scaling is enabled. -/
structure EdgeAttrs where
  width : ℝ
  color : String
  title : String
  arrows_scaleFactor : Option ℝ := none
  opacity : Option ℚ := none

/-- A `networkx.DiGraph`: nodes keyed by IP, directed edges keyed by the
`(source, destination)` pair; re-adding a key overwrites its attributes. -/
structure Graph where
  nodes : List (String × NodeAttrs)
  edges : List ((String × String) × EdgeAttrs)

/-- `FirewallGraphBuilder.__init__` state. -/
structure FirewallGraphBuilder where
  viz_data : List Row
  config : BuilderConfig
  hostname_resolver : Option (String → String)

/-- Minimum of a pandas numeric series (`[]` never occurs on the read paths). -/
def listMinQ : List ℚ → ℚ
  | [] => 0
  | x :: xs => xs.foldl min x

/-- Maximum of a pandas numeric series. -/
def listMaxQ : List ℚ → ℚ
  | [] => 0
  | x :: xs => xs.foldl max x

/-- Combined `node_stats`: `groupby('Source IP')['Hits'].sum().add(
groupby('Destination IP')['Hits'].sum(), fill_value=0)` read at one IP —
outbound hits plus inbound hits, a missing side contributing 0. -/
def nodeStats (rows : List Row) (ip : String) : ℚ :=
  ((rows.filter fun r => r.src = ip).map (·.hits)).sum +
    ((rows.filter fun r => r.dst = ip).map (·.hits)).sum

/-- The index of the combined series: every IP occurring as source or
destination (order is irrelevant; only `min`/`max` are read from it). -/
def poolIPs (rows : List Row) : List String :=
  ((rows.map (·.src)) ++ (rows.map (·.dst))).dedup

/-- `node_stats.min()`. -/
def minStats (rows : List Row) : ℚ := listMinQ ((poolIPs rows).map (nodeStats rows))

/-- `node_stats.max()`. -/
def maxStats (rows : List Row) : ℚ := listMaxQ ((poolIPs rows).map (nodeStats rows))

/-- `attacker_stats` of the separate mode, read at one source IP. -/
def attackerStats (rows : List Row) (ip : String) : ℚ :=
  ((rows.filter fun r => r.src = ip).map (·.hits)).sum

/-- `target_stats` of the separate mode, read at one destination IP. -/
def targetStats (rows : List Row) (ip : String) : ℚ :=
  ((rows.filter fun r => r.dst = ip).map (·.hits)).sum

/-- `attacker_stats.max()`. -/
def maxAttackerVol (rows : List Row) : ℚ :=
  listMaxQ (((rows.map (·.src)).dedup).map (attackerStats rows))

/-- `target_stats.max()`. -/
def maxTargetVol (rows : List Row) : ℚ :=
  listMaxQ (((rows.map (·.dst)).dedup).map (targetStats rows))

/-- `_get_hostname`: resolver result, or the IP itself without a resolver. -/
def _get_hostname (b : FirewallGraphBuilder) (ip : String) : String :=
  match b.hostname_resolver with
  | some resolve => resolve ip
  | none => ip

/-- Truthiness of a `hostname_labels` entry (`.get(key, False)` on values
loaded from YAML). -/
def truthyVal : Option Val → Bool
  | some (.bool bv) => bv
  | some (.num q) => q ≠ 0
  | some (.str s) => s ≠ ""
  | none => false

/-- `_format_node_label` from src/graph/graph_builder.py: the raw IP unless
a resolver is present, the hostname differs from the IP, and
`show_in_labels` is enabled; then `prefer_hostname` / `show_both` choose
the format, defaulting back to the IP. -/
def _format_node_label (b : FirewallGraphBuilder) (ip hostname : String) : String :=
  let hostname_settings := b.config.hostname_labels.getD []
  if b.hostname_resolver.isNone ∨ hostname = ip then ip
  else if ¬ truthyVal (dictGet hostname_settings "show_in_labels") then ip
  else if truthyVal (dictGet hostname_settings "prefer_hostname") then hostname
  else if truthyVal (dictGet hostname_settings "show_both") then ip ++ "\n" ++ hostname
  else ip

/-- `_add_node_combined`: source and destination node of one aggregated row,
both sized by log-range scaling of the combined `node_stats` pool over
`[min_stats, max_stats]` into `node_size_range`. -/
noncomputable def _add_node_combined (b : FirewallGraphBuilder) (g : Graph) (row : Row) :
    Graph :=
  let node_size_range := b.config.node_size_range.getD [3, 15]
  let lo : ℝ := (node_size_range.getD 0 0 : ℚ)
  let hi : ℝ := (node_size_range.getD 1 0 : ℚ)
  let rows := b.viz_data
  let src := row.src
  let dst := row.dst
  let src_size := scale_log_range (nodeStats rows src : ℚ) (minStats rows : ℚ)
    (maxStats rows : ℚ) lo hi
  let src_hostname := _get_hostname b src
  let src_title :=
    if src_hostname ≠ src then
      "ATTACKER: " ++ src ++ "\nHostname: " ++ src_hostname ++ "\nCountry: " ++ row.country
    else "ATTACKER: " ++ src ++ "\nCountry: " ++ row.country
  let srcAttrs : NodeAttrs :=
    { label := _format_node_label b src src_hostname, size := src_size,
      color := "#bdc3c7", title := src_title }
  let g1 : Graph := { g with nodes := dictSet g.nodes src srcAttrs }
  let dst_size := scale_log_range (nodeStats rows dst : ℚ) (minStats rows : ℚ)
    (maxStats rows : ℚ) lo hi
  let dst_hostname := _get_hostname b dst
  let dst_title :=
    if dst_hostname ≠ dst then "TARGET: " ++ dst ++ "\nHostname: " ++ dst_hostname
    else "TARGET: " ++ dst
  let dstAttrs : NodeAttrs :=
    { label := _format_node_label b dst dst_hostname, size := dst_size,
      color := "#3498db", title := dst_title }
  { g1 with nodes := dictSet g1.nodes dst dstAttrs }

/-- `_add_attacker_node_separate`. -/
noncomputable def _add_attacker_node_separate (b : FirewallGraphBuilder) (g : Graph)
    (row : Row) : Graph :=
  let rows := b.viz_data
  let src := row.src
  let src_vol := attackerStats rows src
  let node_size_range := b.config.node_size_range.getD [6, 28]
  let lo : ℝ := (node_size_range.getD 0 0 : ℚ)
  let hi : ℝ := (node_size_range.getD 1 0 : ℚ)
  let src_size :=
    if b.config.node_scale_method = some "sqrt" then
      scale_sqrt (src_vol : ℚ) 0 (maxAttackerVol rows : ℚ) lo hi
    else scale_linear (src_vol : ℚ) 0 (maxAttackerVol rows : ℚ) lo hi
  let color_mode := b.config.color_mode.getD "gradient"
  let src_color :=
    if color_mode = "heatmap" then
      get_heatmap_color src_vol (maxAttackerVol rows)
        (b.config.color_thresholds.getD [0.15, 0.4, 0.7])
    else "#bdc3c7"
  let src_hostname := _get_hostname b src
  let src_label :=
    match b.config.label_threshold with
    | some t =>
        if t ≠ 0 then
          if src_vol > maxAttackerVol rows * t then _format_node_label b src src_hostname
          else ""
        else _format_node_label b src src_hostname
    | none => _format_node_label b src src_hostname
  let src_title :=
    if src_hostname ≠ src then
      "ATTACKER: " ++ src ++ "\nHostname: " ++ src_hostname ++ "\nCountry: " ++ row.country
        ++ "\nTotal Hits: " ++ toString src_vol
    else
      "ATTACKER: " ++ src ++ "\nCountry: " ++ row.country ++ "\nTotal Hits: "
        ++ toString src_vol
  let srcAttrs : NodeAttrs :=
    { label := src_label, size := src_size, color := src_color,
      borderWidth := some 2, shape := some "dot", title := src_title }
  { g with nodes := dictSet g.nodes src srcAttrs }

/-- `_add_target_node_separate`. -/
noncomputable def _add_target_node_separate (b : FirewallGraphBuilder) (g : Graph)
    (row : Row) : Graph :=
  let rows := b.viz_data
  let dst := row.dst
  let dst_vol := targetStats rows dst
  let target_size_range := b.config.target_size_range.getD [8, 30]
  let lo : ℝ := (target_size_range.getD 0 0 : ℚ)
  let hi : ℝ := (target_size_range.getD 1 0 : ℚ)
  let dst_size :=
    if b.config.node_scale_method = some "sqrt" then
      scale_sqrt (dst_vol : ℚ) 0 (maxTargetVol rows : ℚ) lo hi
    else scale_linear (dst_vol : ℚ) 0 (maxTargetVol rows : ℚ) lo hi
  let dst_hostname := _get_hostname b dst
  let dst_title :=
    if dst_hostname ≠ dst then
      "TARGET: " ++ dst ++ "\nHostname: " ++ dst_hostname ++ "\nIncoming Hits: "
        ++ toString dst_vol
    else "TARGET: " ++ dst ++ "\nIncoming Hits: " ++ toString dst_vol
  let dstAttrs : NodeAttrs :=
    { label := _format_node_label b dst dst_hostname, size := dst_size,
      color := "#2c3e50", borderWidth := some 3, borderColor := some "#3498db",
      title := dst_title }
  { g with nodes := dictSet g.nodes dst dstAttrs }

/-- `_add_edge`: width from the configured scale method, color from the
smooth gradient unless disabled, optional arrow scaling and opacity. -/
noncomputable def _add_edge (b : FirewallGraphBuilder) (g : Graph) (src dst : String)
    (hits : ℤ) (row : Row) (max_hits min_hits : ℚ) : Graph :=
  let edge_width_range := b.config.edge_width_range.getD [1, 6]
  let lo : ℝ := (edge_width_range.getD 0 0 : ℚ)
  let hi : ℝ := (edge_width_range.getD 1 0 : ℚ)
  let edge_width : ℝ :=
    if b.config.edge_scale_method = some "sqrt_simple" then
      let sqrt_hits := Real.sqrt (hits : ℝ)
      let sqrt_min := Real.sqrt (min_hits : ℚ)
      let sqrt_max := Real.sqrt (max_hits : ℚ)
      if sqrt_max > sqrt_min then
        lo + (sqrt_hits - sqrt_min) / (sqrt_max - sqrt_min) * (hi - lo)
      else lo
    else if b.config.edge_scale_method = some "linear" then
      scale_linear (hits : ℝ) (min_hits : ℚ) (max_hits : ℚ) lo hi
    else scale_linear (hits : ℝ) (min_hits : ℚ) (max_hits : ℚ) lo hi
  let color_mode := b.config.color_mode.getD "gradient"
  let use_smooth := b.config.use_smooth_gradient.getD true
  let edge_color :=
    if use_smooth then get_smooth_gradient (hits : ℚ) min_hits max_hits
    else if color_mode = "heatmap" then
      get_heatmap_color (hits : ℚ) max_hits (b.config.color_thresholds.getD [0.15, 0.4, 0.7])
    else get_color_gradient (hits : ℚ) max_hits (b.config.color_thresholds.getD [0.2, 0.6])
  let arrow_scale_factor : Option ℝ :=
    if b.config.scale_arrows_with_edges.getD false then
      let base_arrow_scale : ℝ := (b.config.base_arrow_scale.getD 0.5 : ℚ)
      some (base_arrow_scale * (edge_width / lo))
    else none
  let opacity : Option ℚ :=
    match b.config.edge_opacity with
    | some q => if q ≠ 0 then some q else none
    | none => none
  let attrs : EdgeAttrs :=
    { width := edge_width, color := edge_color,
      title := "Hits: " ++ toString hits ++ "\nType: " ++ row.classif,
      arrows_scaleFactor := arrow_scale_factor, opacity := opacity }
  { g with edges := dictSet g.edges (src, dst) attrs }

/-- One iteration of `build`'s row loop: add the nodes (by sizing mode),
then the edge. -/
noncomputable def buildStep (b : FirewallGraphBuilder) (max_hits min_hits : ℚ)
    (g : Graph) (row : Row) : Graph :=
  let g1 :=
    if b.config.node_sizing = some "separate" then
      _add_target_node_separate b (_add_attacker_node_separate b g row) row
    else _add_node_combined b g row
  _add_edge b g1 row.src row.dst (pyInt row.hits) row max_hits min_hits

/-- `FirewallGraphBuilder.build`: global hit statistics, then one pass over
the aggregated rows adding nodes and edges. -/
noncomputable def build (b : FirewallGraphBuilder) : Graph :=
  let max_hits := listMaxQ (b.viz_data.map (·.hits))
  let min_hits := listMinQ (b.viz_data.map (·.hits))
  b.viz_data.foldl (buildStep b max_hits min_hits) ⟨[], []⟩

/-- The size `_add_node_combined` assigns to an IP: log-range scaling of
its pooled volume over `[node_stats.min(), node_stats.max()]` into the
configured node-size range. -/
noncomputable def combinedSize (b : FirewallGraphBuilder) (ip : String) : ℝ :=
  scale_log_range (nodeStats b.viz_data ip : ℚ) (minStats b.viz_data : ℚ)
    (maxStats b.viz_data : ℚ)
    (((b.config.node_size_range.getD [3, 15]).getD 0 0 : ℚ) : ℝ)
    (((b.config.node_size_range.getD [3, 15]).getD 1 0 : ℚ) : ℝ)

/-! ## Concrete instances used by the verification below -/

/-- Three cleaned rows of one source: 5 total hits over 3 distinct
destinations (the spec's risk-score example). -/
def exampleRiskRows : List Row :=
  [⟨"9.9.9.9", "10.0.0.1", 2, "CZ", "Misc"⟩,
   ⟨"9.9.9.9", "10.0.0.2", 2, "CZ", "Misc"⟩,
   ⟨"9.9.9.9", "10.0.0.3", 1, "CZ", "Scan"⟩]

/-- A single cleaned row. -/
def exampleAggRow : Row := ⟨"1.1.1.1", "2.2.2.2", 5, "CZ", "Misc"⟩

/-- A combined-mode builder whose pooled volumes collide across roles:
`10.0.0.1` (source only) and `10.0.0.3` (destination only) both pool 2. -/
def exampleCombinedBuilder : FirewallGraphBuilder :=
  { viz_data := [⟨"10.0.0.1", "10.0.0.2", 2, "CZ", "Misc"⟩,
                 ⟨"10.0.0.2", "10.0.0.3", 2, "CZ", "Misc"⟩],
    config := {}, hostname_resolver := none }

/-- A builder whose resolver finds a hostname but whose settings leave
`show_in_labels` false while `prefer_hostname` is true. -/
def exampleLabelBuilder : FirewallGraphBuilder :=
  { viz_data := [],
    config := { hostname_labels := some [("show_in_labels", .bool false),
                                         ("prefer_hostname", .bool true)] },
    hostname_resolver := some fun _ => "host.example" }

/-- Global settings carrying only a physics override. -/
def overlayPhysicsGlobal : GlobalConfig := { physics := some [("central_gravity", .num 0.9)] }

/-- Global settings with node-size multiplier 2.0. -/
def overlayDouble : GlobalConfig := { node_size_multiplier := some 2 }

/-- Global settings with node-size multiplier 0.1. -/
def overlayTenth : GlobalConfig := { node_size_multiplier := some 0.1 }

/-! # Verification -/

/-! ## Interpolation helpers -/

theorem interp_mono {A B D R t : ℝ} (hAB : A ≤ B) (hD : 0 < D) (hR : 0 ≤ R) :
    t + A / D * R ≤ t + B / D * R := by
  have h1 : A / D ≤ B / D := (div_le_div_right hD).mpr hAB
  exact add_le_add_left (mul_le_mul_of_nonneg_right h1 hR) t

theorem interp_bounds {A D R t : ℝ} (h0 : 0 ≤ A) (hAD : A ≤ D) (hD : 0 < D) (hR : 0 ≤ R) :
    t ≤ t + A / D * R ∧ t + A / D * R ≤ t + R := by
  constructor
  · have h1 : 0 ≤ A / D := div_nonneg h0 hD.le
    nlinarith
  · have h1 : A / D ≤ 1 := (div_le_one hD).mpr hAD
    nlinarith

/-! ## C1, C2, C10 — the three scaling functions -/

/-- C1: with a degenerate domain (`domain_min == domain_max`), each of
`scale_linear`, `scale_sqrt`, `scale_log_range` returns `range_min`
exactly (the explicit early return, before any division). -/
theorem scaling_degenerate_returns_range_min (v d range_min range_max : ℝ) :
    scale_linear v d d range_min range_max = range_min ∧
    scale_sqrt v d d range_min range_max = range_min ∧
    scale_log_range v d d range_min range_max = range_min := by
  refine ⟨?_, ?_, ?_⟩ <;> simp [scale_linear, scale_sqrt, scale_log_range]

/-- C2: on a non-degenerate domain with an ordered target range, all three
scaling functions are monotone; for the sqrt and log variants the domain is
additionally nonnegative (the real-valued domain of `sqrt`/`log1p` — on
negative inputs the Python functions produce NaN). -/
theorem scaling_monotone (v1 v2 dmin dmax rmin rmax : ℝ)
    (hdom : dmin < dmax) (hv1 : dmin ≤ v1) (h12 : v1 < v2) (hv2 : v2 ≤ dmax)
    (hr : rmin ≤ rmax) :
    scale_linear v1 dmin dmax rmin rmax ≤ scale_linear v2 dmin dmax rmin rmax ∧
    (0 ≤ dmin → scale_sqrt v1 dmin dmax rmin rmax ≤ scale_sqrt v2 dmin dmax rmin rmax) ∧
    (0 ≤ dmin →
      scale_log_range v1 dmin dmax rmin rmax ≤ scale_log_range v2 dmin dmax rmin rmax) := by
  have hne : dmax ≠ dmin := ne_of_gt hdom
  refine ⟨?_, ?_, ?_⟩
  · rw [scale_linear, scale_linear, if_neg hne, if_neg hne]
    exact interp_mono (by linarith) (by linarith) (by linarith)
  · intro h0
    rw [scale_sqrt, scale_sqrt, if_neg hne, if_neg hne]
    have hmono : Real.sqrt v1 ≤ Real.sqrt v2 := Real.sqrt_le_sqrt h12.le
    have hden : Real.sqrt dmin < Real.sqrt dmax := Real.sqrt_lt_sqrt h0 hdom
    exact interp_mono (by linarith) (by linarith) (by linarith)
  · intro h0
    rw [scale_log_range, scale_log_range, if_neg hne, if_neg hne]
    simp only [log1p]
    have hmono : Real.log (1 + v1) ≤ Real.log (1 + v2) :=
      Real.log_le_log (by linarith) (by linarith)
    have hden : Real.log (1 + dmin) < Real.log (1 + dmax) :=
      Real.log_lt_log (by linarith) (by linarith)
    exact interp_mono (by linarith) (by linarith) (by linarith)

theorem scaling_monotone_witness :
    scale_linear 1 0 10 1 6 ≤ scale_linear 4 0 10 1 6 ∧
    scale_sqrt 1 0 10 1 6 ≤ scale_sqrt 4 0 10 1 6 ∧
    scale_log_range 1 0 10 1 6 ≤ scale_log_range 4 0 10 1 6 := by
  have h := scaling_monotone 1 4 0 10 1 6 (by norm_num) (by norm_num) (by norm_num)
    (by norm_num) (by norm_num)
  exact ⟨h.1, h.2.1 (by norm_num), h.2.2 (by norm_num)⟩

/-- C10: for values inside the domain and an ordered target range, every
scaling function lands inside `[target_min, target_max]` (the sqrt/log
parts over the nonnegative real-valued domain); and no clamping is
performed — each function exceeds the target range on an out-of-domain
input. -/
theorem scaling_in_target_range (v dmin dmax tmin tmax : ℝ)
    (hlo : dmin ≤ v) (hhi : v ≤ dmax) (ht : tmin ≤ tmax) :
    (tmin ≤ scale_linear v dmin dmax tmin tmax ∧
      scale_linear v dmin dmax tmin tmax ≤ tmax) ∧
    (0 ≤ dmin → tmin ≤ scale_sqrt v dmin dmax tmin tmax ∧
      scale_sqrt v dmin dmax tmin tmax ≤ tmax) ∧
    (0 ≤ dmin → tmin ≤ scale_log_range v dmin dmax tmin tmax ∧
      scale_log_range v dmin dmax tmin tmax ≤ tmax) ∧
    1 < scale_linear 2 0 1 0 1 ∧ 1 < scale_sqrt 4 0 1 0 1 ∧
    1 < scale_log_range 3 0 1 0 1 := by
  have hR : (0:ℝ) ≤ tmax - tmin := by linarith
  refine ⟨?_, ?_, ?_, ?_, ?_, ?_⟩
  · by_cases hd : dmax = dmin
    · rw [scale_linear, if_pos hd]; exact ⟨le_refl _, ht⟩
    · have hdom : dmin < dmax := lt_of_le_of_ne (hlo.trans hhi) (Ne.symm hd)
      rw [scale_linear, if_neg hd]
      have h := interp_bounds (A := v - dmin) (D := dmax - dmin) (R := tmax - tmin)
        (t := tmin) (by linarith) (by linarith) (by linarith) hR
      exact ⟨h.1, by linarith [h.2]⟩
  · intro h0
    by_cases hd : dmax = dmin
    · rw [scale_sqrt, if_pos hd]; exact ⟨le_refl _, ht⟩
    · have hdom : dmin < dmax := lt_of_le_of_ne (hlo.trans hhi) (Ne.symm hd)
      rw [scale_sqrt, if_neg hd]
      have h1 : Real.sqrt dmin ≤ Real.sqrt v := Real.sqrt_le_sqrt hlo
      have h2 : Real.sqrt v ≤ Real.sqrt dmax := Real.sqrt_le_sqrt hhi
      have hden : Real.sqrt dmin < Real.sqrt dmax := Real.sqrt_lt_sqrt h0 hdom
      have h := interp_bounds (A := Real.sqrt v - Real.sqrt dmin)
        (D := Real.sqrt dmax - Real.sqrt dmin) (R := tmax - tmin) (t := tmin)
        (by linarith) (by linarith) (by linarith) hR
      exact ⟨h.1, by linarith [h.2]⟩
  · intro h0
    by_cases hd : dmax = dmin
    · rw [scale_log_range, if_pos hd]; exact ⟨le_refl _, ht⟩
    · have hdom : dmin < dmax := lt_of_le_of_ne (hlo.trans hhi) (Ne.symm hd)
      rw [scale_log_range, if_neg hd]
      simp only [log1p]
      have h1 : Real.log (1 + dmin) ≤ Real.log (1 + v) :=
        Real.log_le_log (by linarith) (by linarith)
      have h2 : Real.log (1 + v) ≤ Real.log (1 + dmax) :=
        Real.log_le_log (by linarith) (by linarith)
      have hden : Real.log (1 + dmin) < Real.log (1 + dmax) :=
        Real.log_lt_log (by linarith) (by linarith)
      have h := interp_bounds (A := Real.log (1 + v) - Real.log (1 + dmin))
        (D := Real.log (1 + dmax) - Real.log (1 + dmin)) (R := tmax - tmin) (t := tmin)
        (by linarith) (by linarith) (by linarith) hR
      exact ⟨h.1, by linarith [h.2]⟩
  · rw [scale_linear, if_neg (by norm_num : (1:ℝ) ≠ 0)]
    norm_num
  · rw [scale_sqrt, if_neg (by norm_num : (1:ℝ) ≠ 0)]
    have h4 : Real.sqrt 4 = 2 := by
      rw [show (4:ℝ) = 2 ^ 2 by norm_num, Real.sqrt_sq (by norm_num : (0:ℝ) ≤ 2)]
    rw [h4, Real.sqrt_zero, Real.sqrt_one]
    norm_num
  · rw [scale_log_range, if_neg (by norm_num : (1:ℝ) ≠ 0)]
    simp only [log1p]
    norm_num
    have h4 : Real.log 4 = 2 * Real.log 2 := by
      rw [show (4:ℝ) = 2 ^ 2 by norm_num, Real.log_pow]
      push_cast
      ring
    have h2 : (0:ℝ) < Real.log 2 := Real.log_pos (by norm_num)
    rw [h4, mul_div_assoc, div_self (ne_of_gt h2)]
    norm_num

theorem scaling_in_target_range_witness :
    (5 ≤ scale_linear 2 1 4 5 7 ∧ scale_linear 2 1 4 5 7 ≤ 7) ∧
    (5 ≤ scale_sqrt 2 1 4 5 7 ∧ scale_sqrt 2 1 4 5 7 ≤ 7) ∧
    (5 ≤ scale_log_range 2 1 4 5 7 ∧ scale_log_range 2 1 4 5 7 ≤ 7) := by
  have h := scaling_in_target_range 2 1 4 5 7 (by norm_num) (by norm_num) (by norm_num)
  exact ⟨h.1, h.2.1 (by norm_num), h.2.2.1 (by norm_num)⟩

/-! ## C3 — smooth gradient boundary colors

Helper lemmas for evaluating `round64` at the concrete rationals the
gradient produces at its boundary ratios. -/

theorem rne_intCast (n : ℤ) : rne (n : ℚ) = n := by
  rw [rne, Int.floor_intCast]
  norm_num

theorem round64_zero : round64 0 = 0 := by simp [round64]

theorem Int_log_eq_of_bounds (q : ℚ) (e : ℤ) (h0 : 0 < q)
    (h1 : (2:ℚ) ^ e ≤ q) (h2 : q < (2:ℚ) ^ (e + 1)) : Int.log 2 q = e := by
  have hb : (1:ℕ) < 2 := one_lt_two
  have ha : e ≤ Int.log 2 q := by
    rw [← Int.zpow_le_iff_le_log hb h0]
    exact_mod_cast h1
  have hc : Int.log 2 q < e + 1 := by
    rw [← Int.lt_zpow_iff_log_lt hb h0]
    exact_mod_cast h2
  omega

theorem round64_eq_pos (q : ℚ) (m e : ℤ) (h0 : 0 < q)
    (h1 : (2:ℚ) ^ (e + 52) ≤ q) (h2 : q < (2:ℚ) ^ (e + 53))
    (hm : rne (q / (2:ℚ) ^ e) = m) :
    round64 q = (m : ℚ) * (2:ℚ) ^ e := by
  have hlog : Int.log 2 |q| = e + 52 := by
    rw [abs_of_pos h0]
    exact Int_log_eq_of_bounds q (e + 52) h0 h1
      (by rw [show e + 52 + 1 = e + 53 by omega]; exact h2)
  rw [round64, if_neg (ne_of_gt h0)]
  simp only [hlog, show e + 52 - 52 = e by omega, hm]

theorem round64_eq_neg (q : ℚ) (m e : ℤ) (h0 : q < 0)
    (h1 : (2:ℚ) ^ (e + 52) ≤ -q) (h2 : -q < (2:ℚ) ^ (e + 53))
    (hm : rne (q / (2:ℚ) ^ e) = m) :
    round64 q = (m : ℚ) * (2:ℚ) ^ e := by
  have hlog : Int.log 2 |q| = e + 52 := by
    rw [abs_of_neg h0]
    exact Int_log_eq_of_bounds (-q) (e + 52) (by linarith) h1
      (by rw [show e + 52 + 1 = e + 53 by omega]; exact h2)
  rw [round64, if_neg (ne_of_lt h0)]
  simp only [hlog, show e + 52 - 52 = e by omega, hm]

/-- A rational with a 53-bit significand is a binary64 value: rounding
fixes it. -/
theorem round64_eq_self (q : ℚ) (m e : ℤ) (hq : q = (m : ℚ) * (2:ℚ) ^ e)
    (hm : |m| < 2 ^ 53) : round64 q = q := by
  by_cases hq0 : q = 0
  · rw [hq0, round64_zero]
  · have habs : 0 < |q| := abs_pos.mpr hq0
    set L := Int.log 2 |q| with hL
    have hub : |q| < (2:ℚ) ^ (e + 53) := by
      rw [hq, abs_mul, abs_of_pos (zpow_pos (by norm_num : (0:ℚ) < 2) e)]
      have hmq : |(m:ℚ)| < (2:ℚ) ^ (53:ℤ) := by
        rw [show ((2:ℚ) ^ (53:ℤ)) = ((2 ^ 53 : ℤ) : ℚ) by push_cast; norm_num]
        exact_mod_cast hm
      calc |(m:ℚ)| * (2:ℚ) ^ e < (2:ℚ) ^ (53:ℤ) * (2:ℚ) ^ e :=
            mul_lt_mul_of_pos_right hmq (zpow_pos (by norm_num) e)
        _ = (2:ℚ) ^ (e + 53) := by
            rw [← zpow_add₀ (by norm_num : (2:ℚ) ≠ 0)]
            congr 1
            omega
    have he : L ≤ e + 52 := by
      have := (Int.lt_zpow_iff_log_lt one_lt_two habs).mp (by exact_mod_cast hub)
      omega
    have hknn : 0 ≤ e - (L - 52) := by omega
    have hx : q / (2:ℚ) ^ (L - 52) = ((m * 2 ^ (e - (L - 52)).toNat : ℤ) : ℚ) := by
      rw [hq]
      push_cast
      rw [← zpow_natCast (2:ℚ), Int.toNat_of_nonneg hknn]
      rw [div_eq_iff (by positivity : ((2:ℚ) ^ (L - 52)) ≠ 0)]
      rw [mul_assoc, ← zpow_add₀ (by norm_num : (2:ℚ) ≠ 0), Int.sub_add_cancel]
    rw [round64, if_neg hq0]
    simp only [← hL]
    rw [hx, rne_intCast, ← hx]
    field_simp

/-- The gradient at computed ratio 0 is the exact green stop. -/
theorem gsg_at_zero (value min_val max_val : ℚ) (hne' : ¬ max_val = min_val)
    (hr : round64 (round64 (value - min_val) / round64 (max_val - min_val)) = 0) :
    get_smooth_gradient value min_val max_val = "#2ecc71" := by
  have hloc : round64 ((0:ℚ) / d033) = 0 := by rw [zero_div, round64_zero]
  have g1 : round64 ((46:ℚ) + round64 ((241 - 46) * 0)) = 46 := by
    rw [show ((241:ℚ) - 46) * 0 = 0 by norm_num, round64_zero,
      show ((46:ℚ) + 0) = 46 by norm_num]
    exact round64_eq_self 46 46 0 (by norm_num) (by norm_num)
  have g2 : round64 ((204:ℚ) + round64 ((196 - 204) * 0)) = 204 := by
    rw [show ((196:ℚ) - 204) * 0 = 0 by norm_num, round64_zero,
      show ((204:ℚ) + 0) = 204 by norm_num]
    exact round64_eq_self 204 204 0 (by norm_num) (by norm_num)
  have g3 : round64 ((113:ℚ) + round64 ((15 - 113) * 0)) = 113 := by
    rw [show ((15:ℚ) - 113) * 0 = 0 by norm_num, round64_zero,
      show ((113:ℚ) + 0) = 113 by norm_num]
    exact round64_eq_self 113 113 0 (by norm_num) (by norm_num)
  have p1 : pyInt (46:ℚ) = 46 := by rw [pyInt, if_neg (by norm_num)]; norm_num
  have p2 : pyInt (204:ℚ) = 204 := by rw [pyInt, if_neg (by norm_num)]; norm_num
  have p3 : pyInt (113:ℚ) = 113 := by rw [pyInt, if_neg (by norm_num)]; norm_num
  rw [get_smooth_gradient, if_neg hne']
  simp only [hr]
  rw [if_pos (by norm_num [d033] : (0:ℚ) < d033)]
  rw [hloc, g1, g2, g3, p1, p2, p3]
  decide

/-- The gradient at computed ratio `d033` (the double `0.33`) is the exact
yellow stop. -/
theorem gsg_at_d033 (value min_val max_val : ℚ) (hne' : ¬ max_val = min_val)
    (hr : round64 (round64 (value - min_val) / round64 (max_val - min_val)) = d033) :
    get_smooth_gradient value min_val max_val = "#f1c40f" := by
  have hloc : round64 (round64 (d033 - d033) / d034) = 0 := by
    rw [sub_self, round64_zero, zero_div, round64_zero]
  have g1 : round64 ((241:ℚ) + round64 ((230 - 241) * 0)) = 241 := by
    rw [show ((230:ℚ) - 241) * 0 = 0 by norm_num, round64_zero,
      show ((241:ℚ) + 0) = 241 by norm_num]
    exact round64_eq_self 241 241 0 (by norm_num) (by norm_num)
  have g2 : round64 ((196:ℚ) + round64 ((126 - 196) * 0)) = 196 := by
    rw [show ((126:ℚ) - 196) * 0 = 0 by norm_num, round64_zero,
      show ((196:ℚ) + 0) = 196 by norm_num]
    exact round64_eq_self 196 196 0 (by norm_num) (by norm_num)
  have g3 : round64 ((15:ℚ) + round64 ((34 - 15) * 0)) = 15 := by
    rw [show ((34:ℚ) - 15) * 0 = 0 by norm_num, round64_zero,
      show ((15:ℚ) + 0) = 15 by norm_num]
    exact round64_eq_self 15 15 0 (by norm_num) (by norm_num)
  have p1 : pyInt (241:ℚ) = 241 := by rw [pyInt, if_neg (by norm_num)]; norm_num
  have p2 : pyInt (196:ℚ) = 196 := by rw [pyInt, if_neg (by norm_num)]; norm_num
  have p3 : pyInt (15:ℚ) = 15 := by rw [pyInt, if_neg (by norm_num)]; norm_num
  rw [get_smooth_gradient, if_neg hne']
  simp only [hr]
  rw [if_neg (lt_irrefl d033), if_pos (by norm_num [d033, d067] : d033 < d067)]
  rw [hloc, g1, g2, g3, p1, p2, p3]
  decide

/-- The gradient at computed ratio `d067` (the double `0.67`) is the exact
orange stop. -/
theorem gsg_at_d067 (value min_val max_val : ℚ) (hne' : ¬ max_val = min_val)
    (hr : round64 (round64 (value - min_val) / round64 (max_val - min_val)) = d067) :
    get_smooth_gradient value min_val max_val = "#e67e22" := by
  have hloc : round64 (round64 (d067 - d067) / d033) = 0 := by
    rw [sub_self, round64_zero, zero_div, round64_zero]
  have g1 : round64 ((230:ℚ) + round64 ((231 - 230) * 0)) = 230 := by
    rw [show ((231:ℚ) - 230) * 0 = 0 by norm_num, round64_zero,
      show ((230:ℚ) + 0) = 230 by norm_num]
    exact round64_eq_self 230 230 0 (by norm_num) (by norm_num)
  have g2 : round64 ((126:ℚ) + round64 ((76 - 126) * 0)) = 126 := by
    rw [show ((76:ℚ) - 126) * 0 = 0 by norm_num, round64_zero,
      show ((126:ℚ) + 0) = 126 by norm_num]
    exact round64_eq_self 126 126 0 (by norm_num) (by norm_num)
  have g3 : round64 ((34:ℚ) + round64 ((60 - 34) * 0)) = 34 := by
    rw [show ((60:ℚ) - 34) * 0 = 0 by norm_num, round64_zero,
      show ((34:ℚ) + 0) = 34 by norm_num]
    exact round64_eq_self 34 34 0 (by norm_num) (by norm_num)
  have p1 : pyInt (230:ℚ) = 230 := by rw [pyInt, if_neg (by norm_num)]; norm_num
  have p2 : pyInt (126:ℚ) = 126 := by rw [pyInt, if_neg (by norm_num)]; norm_num
  have p3 : pyInt (34:ℚ) = 34 := by rw [pyInt, if_neg (by norm_num)]; norm_num
  rw [get_smooth_gradient, if_neg hne']
  simp only [hr]
  rw [if_neg (by norm_num [d033, d067] : ¬ d067 < d033), if_neg (lt_irrefl d067)]
  rw [hloc, g1, g2, g3, p1, p2, p3]
  decide

/-- The gradient at computed ratio 1.0: the binary64 interpolation keeps
red 231 and green 76 but truncates blue to 59, giving `#e74c3b` — one
below the red stop's blue channel 60. -/
theorem gsg_at_one (value min_val max_val : ℚ) (hne' : ¬ max_val = min_val)
    (hr : round64 (round64 (value - min_val) / round64 (max_val - min_val)) = 1) :
    get_smooth_gradient value min_val max_val = "#e74c3b" := by
  have e1 : round64 ((1:ℚ) - d067) = 2972375754064527 / 2 ^ 53 := by
    have h := round64_eq_pos ((1:ℚ) - d067) 5944751508129054 (-54)
      (by norm_num [d067]) (by norm_num [d067]) (by norm_num [d067])
      (by rw [show ((1:ℚ) - d067) / (2:ℚ) ^ (-54:ℤ) = ((5944751508129054 : ℤ) : ℚ)
            by norm_num [d067]]
          exact rne_intCast _)
    rw [h]; norm_num
  have e2 : round64 ((2972375754064527:ℚ) / 2 ^ 53 / d033) = 9007199254740990 / 2 ^ 53 := by
    have hf : ⌊(2972375754064527:ℚ) / 2 ^ 53 / d033 / (2:ℚ) ^ (-53:ℤ)⌋ =
        9007199254740990 := by
      rw [Int.floor_eq_iff]; norm_num [d033]
    have h := round64_eq_pos ((2972375754064527:ℚ) / 2 ^ 53 / d033) 9007199254740990 (-53)
      (by norm_num [d033]) (by norm_num [d033]) (by norm_num [d033])
      (by rw [rne, hf]; norm_num [d033])
    rw [h]; norm_num
  have e3 : round64 (((231:ℚ) - 230) * (9007199254740990 / 2 ^ 53)) =
      9007199254740990 / 2 ^ 53 := by
    rw [show ((231:ℚ) - 230) * (9007199254740990 / 2 ^ 53) = 9007199254740990 / 2 ^ 53
      by norm_num]
    exact round64_eq_self _ 9007199254740990 (-53) (by norm_num) (by norm_num)
  have e4 : round64 ((230:ℚ) + 9007199254740990 / 2 ^ 53) = 231 := by
    have hf : ⌊((230:ℚ) + 9007199254740990 / 2 ^ 53) / (2:ℚ) ^ (-45:ℤ)⌋ =
        8127589952520191 := by
      rw [Int.floor_eq_iff]; norm_num
    have h := round64_eq_pos ((230:ℚ) + 9007199254740990 / 2 ^ 53) 8127589952520192 (-45)
      (by norm_num) (by norm_num) (by norm_num)
      (by rw [rne, hf]; norm_num)
    rw [h]; norm_num
  have e5 : round64 (((76:ℚ) - 126) * (9007199254740990 / 2 ^ 53)) =
      -(7036874417766398 / 2 ^ 47) := by
    have hf : ⌊((76:ℚ) - 126) * (9007199254740990 / 2 ^ 53) / (2:ℚ) ^ (-47:ℤ)⌋ =
        -7036874417766399 := by
      rw [Int.floor_eq_iff]; norm_num
    have h := round64_eq_neg (((76:ℚ) - 126) * (9007199254740990 / 2 ^ 53))
      (-7036874417766398) (-47)
      (by norm_num) (by norm_num) (by norm_num)
      (by rw [rne, hf]; norm_num)
    rw [h]; norm_num
  have e6 : round64 ((126:ℚ) + -(7036874417766398 / 2 ^ 47)) =
      (126:ℚ) + -(7036874417766398 / 2 ^ 47) :=
    round64_eq_self _ 5348024557502465 (-46) (by norm_num) (by norm_num)
  have e7 : round64 (((60:ℚ) - 34) * (9007199254740990 / 2 ^ 53)) =
      7318349394477054 / 2 ^ 48 := by
    have hf : ⌊((60:ℚ) - 34) * (9007199254740990 / 2 ^ 53) / (2:ℚ) ^ (-48:ℤ)⌋ =
        7318349394477054 := by
      rw [Int.floor_eq_iff]; norm_num
    have h := round64_eq_pos (((60:ℚ) - 34) * (9007199254740990 / 2 ^ 53))
      7318349394477054 (-48)
      (by norm_num) (by norm_num) (by norm_num)
      (by rw [rne, hf]; norm_num)
    rw [h]; norm_num
  have e8 : round64 ((34:ℚ) + 7318349394477054 / 2 ^ 48) =
      (34:ℚ) + 7318349394477054 / 2 ^ 48 :=
    round64_eq_self _ 8444249301319679 (-47) (by norm_num) (by norm_num)
  have p4 : pyInt (231:ℚ) = 231 := by rw [pyInt, if_neg (by norm_num)]; norm_num
  have p6 : pyInt ((126:ℚ) + -(7036874417766398 / 2 ^ 47)) = 76 := by
    rw [pyInt, if_neg (by norm_num), Int.floor_eq_iff]
    norm_num
  have p8 : pyInt ((34:ℚ) + 7318349394477054 / 2 ^ 48) = 59 := by
    rw [pyInt, if_neg (by norm_num), Int.floor_eq_iff]
    norm_num
  rw [get_smooth_gradient, if_neg hne']
  simp only [hr]
  rw [if_neg (by norm_num [d033] : ¬ (1:ℚ) < d033),
    if_neg (by norm_num [d067] : ¬ (1:ℚ) < d067)]
  rw [e1, e2, e3, e4, e5, e6, e7, e8, p4, p6, p8]
  decide

theorem round64_sub_zero_100 : round64 ((100:ℚ) - 0) = 100 := by
  rw [show ((100:ℚ) - 0) = 100 by norm_num]
  exact round64_eq_self 100 100 0 (by norm_num) (by norm_num)

theorem computed_ratio_0_of_100 :
    round64 (round64 ((0:ℚ) - 0) / round64 ((100:ℚ) - 0)) = 0 := by
  rw [show ((0:ℚ) - 0) = 0 by norm_num, round64_zero, round64_sub_zero_100,
    zero_div, round64_zero]

theorem computed_ratio_33_of_100 :
    round64 (round64 ((33:ℚ) - 0) / round64 ((100:ℚ) - 0)) = d033 := by
  have h33 : round64 ((33:ℚ) - 0) = 33 := by
    rw [show ((33:ℚ) - 0) = 33 by norm_num]
    exact round64_eq_self 33 33 0 (by norm_num) (by norm_num)
  rw [h33, round64_sub_zero_100]
  have hf : ⌊(33:ℚ) / 100 / (2:ℚ) ^ (-54:ℤ)⌋ = 5944751508129054 := by
    rw [Int.floor_eq_iff]; norm_num
  have h := round64_eq_pos ((33:ℚ) / 100) 5944751508129055 (-54)
    (by norm_num) (by norm_num) (by norm_num)
    (by rw [rne, hf]; norm_num)
  rw [h]; norm_num [d033]

theorem computed_ratio_67_of_100 :
    round64 (round64 ((67:ℚ) - 0) / round64 ((100:ℚ) - 0)) = d067 := by
  have h67 : round64 ((67:ℚ) - 0) = 67 := by
    rw [show ((67:ℚ) - 0) = 67 by norm_num]
    exact round64_eq_self 67 67 0 (by norm_num) (by norm_num)
  rw [h67, round64_sub_zero_100]
  have hf : ⌊(67:ℚ) / 100 / (2:ℚ) ^ (-53:ℤ)⌋ = 6034823500676464 := by
    rw [Int.floor_eq_iff]; norm_num
  have h := round64_eq_pos ((67:ℚ) / 100) 6034823500676465 (-53)
    (by norm_num) (by norm_num) (by norm_num)
    (by rw [rne, hf]; norm_num)
  rw [h]; norm_num [d067]

theorem computed_ratio_100_of_100 :
    round64 (round64 ((100:ℚ) - 0) / round64 ((100:ℚ) - 0)) = 1 := by
  rw [round64_sub_zero_100, show (100:ℚ) / 100 = 1 by norm_num]
  exact round64_eq_self 1 1 0 (by norm_num) (by norm_num)

/-- C3 counterexample: at the input `(100, 0, 100)` — ratio exactly 1.0,
both as `(value - min)/(max - min)` and as the float computation — the
program returns `#e74c3b`, not the claimed red stop `#e74c3c`: the IEEE
double `(1 - 0.67)/0.33 = 0.9999999999999998` makes the blue channel
truncate to `int(59.999999999999993) = 59`. -/
theorem smooth_gradient_red_stop_counterexample :
    ((100:ℚ) - 0) / (100 - 0) = 1 ∧
    get_smooth_gradient 100 0 100 = "#e74c3b" ∧
    get_smooth_gradient 100 0 100 ≠ "#e74c3c" := by
  have h := gsg_at_one 100 0 100 (by norm_num) computed_ratio_100_of_100
  refine ⟨by norm_num, h, ?_⟩
  rw [h]
  decide

/-- C3 (amended): over a non-degenerate range, the smooth gradient yields
the green stop `#2ecc71` exactly at computed ratio 0.0, and the yellow
`#f1c40f` and orange `#e67e22` stops exactly at computed ratios 0.33 and
0.67 (the binary64 values of those literals); at computed ratio 1.0 the
double interpolation truncates the blue channel one below the red stop,
returning `#e74c3b` (231,76,59) instead of `#e74c3c` (231,76,60). -/
theorem smooth_gradient_stops (value min_val max_val : ℚ) (hne : min_val < max_val) :
    (round64 (round64 (value - min_val) / round64 (max_val - min_val)) = 0 →
      get_smooth_gradient value min_val max_val = "#2ecc71") ∧
    (round64 (round64 (value - min_val) / round64 (max_val - min_val)) = d033 →
      get_smooth_gradient value min_val max_val = "#f1c40f") ∧
    (round64 (round64 (value - min_val) / round64 (max_val - min_val)) = d067 →
      get_smooth_gradient value min_val max_val = "#e67e22") ∧
    (round64 (round64 (value - min_val) / round64 (max_val - min_val)) = 1 →
      get_smooth_gradient value min_val max_val = "#e74c3b") :=
  ⟨gsg_at_zero value min_val max_val hne.ne', gsg_at_d033 value min_val max_val hne.ne',
   gsg_at_d067 value min_val max_val hne.ne', gsg_at_one value min_val max_val hne.ne'⟩

theorem smooth_gradient_stops_witness :
    get_smooth_gradient 0 0 100 = "#2ecc71" ∧
    get_smooth_gradient 33 0 100 = "#f1c40f" ∧
    get_smooth_gradient 67 0 100 = "#e67e22" ∧
    get_smooth_gradient 100 0 100 = "#e74c3b" :=
  ⟨(smooth_gradient_stops 0 0 100 (by norm_num)).1 computed_ratio_0_of_100,
   (smooth_gradient_stops 33 0 100 (by norm_num)).2.1 computed_ratio_33_of_100,
   (smooth_gradient_stops 67 0 100 (by norm_num)).2.2.1 computed_ratio_67_of_100,
   (smooth_gradient_stops 100 0 100 (by norm_num)).2.2.2 computed_ratio_100_of_100⟩

/-! ## C6 — aggregation and top-n truncation -/

theorem aggregate_some_eq (rows : List Row) (n : ℕ) (hn : n ≠ 0) :
    aggregate_for_visualization rows (some n) =
      (List.insertionSort hitsGe (aggregate_for_visualization rows none)).take n := by
  simp [aggregate_for_visualization, hn]

theorem length_aggregate_none (rows : List Row) :
    (aggregate_for_visualization rows none).length = distinctPairCount rows := by
  simp [aggregate_for_visualization, distinctPairCount]

theorem mem_aggregate_none_hits (rows : List Row) (r : Row)
    (hr : r ∈ aggregate_for_visualization rows none) :
    r.hits = groupHits rows (aggKey r) := by
  simp only [aggregate_for_visualization, List.mem_map, List.mem_insertionSort] at hr
  obtain ⟨k, -, rfl⟩ := hr
  simp [aggKey]

/-- C6 (amended): for every record set and every *nonzero* `top_n`, the
aggregation groups by `(Source IP, Destination IP)` with summed hits, and
the truncation keeps exactly `min top_n distinct_pair_count` rows, each
with a hit sum at least that of any discarded group.  (`top_n = 0` is
Python-falsy and skips the truncation — see the counterexample.) -/
theorem aggregate_top_n_truncation (rows : List Row) (n : ℕ) (hn : 1 ≤ n) :
    (aggregate_for_visualization rows (some n)).length = min n (distinctPairCount rows) ∧
    (∀ r ∈ aggregate_for_visualization rows (some n),
      r.hits = groupHits rows (aggKey r)) ∧
    (∀ r1 ∈ aggregate_for_visualization rows (some n),
      ∀ r2 ∈ aggregate_for_visualization rows none,
        aggKey r2 ∉ (aggregate_for_visualization rows (some n)).map aggKey →
        r2.hits ≤ r1.hits) := by
  have hn' : n ≠ 0 := by omega
  have heq := aggregate_some_eq rows n hn'
  refine ⟨?_, ?_, ?_⟩
  · rw [heq]
    simp [length_aggregate_none rows]
  · intro r hr
    rw [heq] at hr
    exact mem_aggregate_none_hits rows r
      ((List.mem_insertionSort hitsGe).mp (List.mem_of_mem_take hr))
  · intro r1 h1 r2 h2 hkey
    rw [heq] at h1 hkey
    set sorted := List.insertionSort hitsGe (aggregate_for_visualization rows none) with hs
    have hpw : sorted.Pairwise hitsGe := List.sorted_insertionSort hitsGe _
    have hsplit : sorted.take n ++ sorted.drop n = sorted := List.take_append_drop n sorted
    have hcross := (List.pairwise_append.mp (by rw [hsplit]; exact hpw)).2.2
    have h2' : r2 ∈ sorted := (List.mem_insertionSort hitsGe).mpr h2
    have h2'' : r2 ∈ sorted.take n ∨ r2 ∈ sorted.drop n :=
      List.mem_append.mp (by rw [hsplit]; exact h2')
    rcases h2'' with h2t | h2d
    · exact absurd (List.mem_map_of_mem aggKey h2t) hkey
    · exact hcross r1 h1 r2 h2d

/-- C6 counterexample: with `top_n = 0` given, the code keeps every group
(Python truthiness), not `min 0 distinct_pair_count = 0` rows. -/
theorem aggregate_top_n_zero_counterexample :
    ¬ ((aggregate_for_visualization [exampleAggRow] (some 0)).length =
        min 0 (distinctPairCount [exampleAggRow])) := by
  decide

theorem aggregate_top_n_truncation_witness :
    (aggregate_for_visualization (exampleAggRow :: exampleRiskRows) (some 2)).length =
      min 2 (distinctPairCount (exampleAggRow :: exampleRiskRows)) :=
  (aggregate_top_n_truncation (exampleAggRow :: exampleRiskRows) 2 (by norm_num)).1

/-! ## C7 — risk report -/

/-- C7: the risk report groups the cleaned rows by source IP, scores every
source as its total summed hits plus 10 times its distinct destination
count, covers every source of the input, and is sorted descending by risk
score. -/
theorem risk_report_scores_sorted (rows : List Row) :
    (∀ r ∈ generate_risk_report rows,
      r.risk_score = totalHits rows r.src + (uniqueDsts rows r.src : ℚ) * 10) ∧
    (∀ s ∈ rows.map (·.src), ∃ r ∈ generate_risk_report rows, r.src = s) ∧
    (generate_risk_report rows).Pairwise scoreGe := by
  refine ⟨?_, ?_, ?_⟩
  · intro r hr
    simp only [generate_risk_report, List.mem_insertionSort, List.mem_map] at hr
    obtain ⟨s, -, rfl⟩ := hr
    rfl
  · intro s hs
    have hs' : s ∈ (rows.map (·.src)).dedup := List.mem_dedup.mpr hs
    have hk : s ∈ List.insertionSort strLe ((rows.map (·.src)).dedup) :=
      (List.mem_insertionSort strLe).mpr hs'
    simp only [generate_risk_report]
    exact ⟨_, (List.mem_insertionSort scoreGe).mpr (List.mem_map_of_mem _ hk), rfl⟩
  · exact List.sorted_insertionSort scoreGe _

theorem risk_report_scores_sorted_witness :
    (⟨"9.9.9.9", 5, 3, "CZ", "Misc", 35⟩ : RiskRow).risk_score =
      totalHits exampleRiskRows "9.9.9.9" +
        (uniqueDsts exampleRiskRows "9.9.9.9" : ℚ) * 10 :=
  (risk_report_scores_sorted exampleRiskRows).1 _ (by
    simp [generate_risk_report, exampleRiskRows, totalHits, uniqueDsts, modeFirst,
      countOccur, groupHits]
    norm_num)

/-! ## C9 — node-label formatting -/

/-- C9: the node label is the raw IP whenever the resolver is absent, or
the hostname equals the IP, or `show_in_labels` is absent/false (even with
`prefer_hostname`/`show_both` set); conversely a non-IP label requires a
resolver, a differing hostname, and `show_in_labels` enabled. -/
theorem format_node_label_defaults_to_ip (b : FirewallGraphBuilder) (ip hostname : String) :
    (b.hostname_resolver = none → _format_node_label b ip hostname = ip) ∧
    (hostname = ip → _format_node_label b ip hostname = ip) ∧
    (truthyVal (dictGet (b.config.hostname_labels.getD []) "show_in_labels") = false →
      _format_node_label b ip hostname = ip) ∧
    (_format_node_label b ip hostname ≠ ip →
      b.hostname_resolver.isSome = true ∧ hostname ≠ ip ∧
      truthyVal (dictGet (b.config.hostname_labels.getD []) "show_in_labels") = true) := by
  refine ⟨?_, ?_, ?_, ?_⟩
  · intro h
    simp [_format_node_label, h]
  · intro h
    simp [_format_node_label, h]
  · intro h
    simp [_format_node_label, h]
  · intro hne
    cases hr : b.hostname_resolver with
    | none => exact absurd (by simp [_format_node_label, hr]) hne
    | some f =>
      by_cases hh : hostname = ip
      · exact absurd (by simp [_format_node_label, hh]) hne
      · by_cases hsi : truthyVal (dictGet (b.config.hostname_labels.getD [])
            "show_in_labels") = true
        · exact ⟨by simp [hr], hh, hsi⟩
        · have hsi' : truthyVal (dictGet (b.config.hostname_labels.getD [])
              "show_in_labels") = false := by simpa using hsi
          exact absurd (by simp [_format_node_label, hsi']) hne

theorem format_node_label_defaults_to_ip_witness :
    _format_node_label exampleLabelBuilder "1.2.3.4" "host.example" = "1.2.3.4" :=
  (format_node_label_defaults_to_ip exampleLabelBuilder "1.2.3.4" "host.example").2.2.1
    (by decide)

/-! ## C8 — combined-mode node sizing -/

theorem mem_dictSet {κ α : Type} [DecidableEq κ] (d : List (κ × α)) (k : κ) (v : α)
    (p : κ × α) (hp : p ∈ dictSet d k v) : p = (k, v) ∨ p ∈ d := by
  induction d with
  | nil => simpa [dictSet] using hp
  | cons q rest ih =>
    obtain ⟨k', v'⟩ := q
    rw [dictSet] at hp
    by_cases hq : k' = k
    · rw [if_pos hq] at hp
      rcases List.mem_cons.mp hp with h | h
      · exact .inl h
      · exact .inr (List.mem_cons_of_mem _ h)
    · rw [if_neg hq] at hp
      rcases List.mem_cons.mp hp with h | h
      · exact .inr (by simp [h])
      · rcases ih h with h' | h'
        · exact .inl h'
        · exact .inr (List.mem_cons_of_mem _ h')

theorem dictGet_of_mem_fst {κ α : Type} [DecidableEq κ] (d : List (κ × α)) (k : κ)
    (h : k ∈ d.map Prod.fst) : ∃ v, dictGet d k = some v ∧ (k, v) ∈ d := by
  induction d with
  | nil => simp at h
  | cons q rest ih =>
    obtain ⟨k', v'⟩ := q
    by_cases hq : k' = k
    · subst hq
      exact ⟨v', by rw [dictGet, if_pos rfl], by simp⟩
    · rw [List.map_cons] at h
      rcases List.mem_cons.mp h with h' | h'
      · exact absurd h'.symm hq
      · obtain ⟨v, hv, hm⟩ := ih h'
        exact ⟨v, by rw [dictGet, if_neg hq]; exact hv, List.mem_cons_of_mem _ hm⟩

theorem nodes_add_edge (b : FirewallGraphBuilder) (g : Graph) (src dst : String)
    (hits : ℤ) (row : Row) (mh mnh : ℚ) :
    (_add_edge b g src dst hits row mh mnh).nodes = g.nodes := rfl

theorem buildStep_node_size (b : FirewallGraphBuilder)
    (hmode : ¬ b.config.node_sizing = some "separate") (mh mnh : ℚ) (g : Graph) (r : Row)
    (hg : ∀ p ∈ g.nodes, p.2.size = combinedSize b p.1) :
    ∀ p ∈ (buildStep b mh mnh g r).nodes, p.2.size = combinedSize b p.1 := by
  intro p hp
  rw [buildStep] at hp
  rw [nodes_add_edge, if_neg hmode] at hp
  rw [_add_node_combined] at hp
  rcases mem_dictSet _ _ _ _ hp with h | h
  · subst h; rfl
  · rcases mem_dictSet _ _ _ _ h with h' | h'
    · subst h'; rfl
    · exact hg p h'

theorem build_foldl_node_size (b : FirewallGraphBuilder)
    (hmode : ¬ b.config.node_sizing = some "separate") (mh mnh : ℚ) :
    ∀ (rows : List Row) (g : Graph),
      (∀ p ∈ g.nodes, p.2.size = combinedSize b p.1) →
      ∀ p ∈ (List.foldl (buildStep b mh mnh) g rows).nodes,
        p.2.size = combinedSize b p.1 := by
  intro rows
  induction rows with
  | nil => intro g hg; simpa using hg
  | cons r rs ih =>
    intro g hg
    rw [List.foldl_cons]
    exact ih _ (buildStep_node_size b hmode mh mnh g r hg)

/-- C8: in combined sizing mode, every node of the built graph carries the
log-range scaling of its pooled (outbound + inbound) volume over the shared
`[min pool, max pool]` domain into the configured node-size range; hence
nodes with equal pooled volume get identical sizes, whatever their role. -/
theorem combined_mode_node_sizing (b : FirewallGraphBuilder)
    (hmode : ¬ b.config.node_sizing = some "separate") :
    (∀ p ∈ (build b).nodes, p.2.size = combinedSize b p.1) ∧
    (∀ ip1 ip2, ip1 ∈ (build b).nodes.map Prod.fst →
      ip2 ∈ (build b).nodes.map Prod.fst →
      nodeStats b.viz_data ip1 = nodeStats b.viz_data ip2 →
      Option.map NodeAttrs.size (dictGet (build b).nodes ip1) =
        Option.map NodeAttrs.size (dictGet (build b).nodes ip2)) := by
  have hmain : ∀ p ∈ (build b).nodes, p.2.size = combinedSize b p.1 := by
    rw [build]
    exact build_foldl_node_size b hmode _ _ b.viz_data ⟨[], []⟩ (by simp)
  refine ⟨hmain, ?_⟩
  intro ip1 ip2 h1 h2 hpool
  obtain ⟨v1, hv1, hm1⟩ := dictGet_of_mem_fst _ _ h1
  obtain ⟨v2, hv2, hm2⟩ := dictGet_of_mem_fst _ _ h2
  rw [hv1, hv2]
  have e1 := hmain (ip1, v1) hm1
  have e2 := hmain (ip2, v2) hm2
  have hsz : v1.size = v2.size := by
    rw [e1, e2, combinedSize, combinedSize, hpool]
  simp [hsz]

theorem combined_mode_node_sizing_witness :
    Option.map NodeAttrs.size (dictGet (build exampleCombinedBuilder).nodes "10.0.0.1") =
      Option.map NodeAttrs.size (dictGet (build exampleCombinedBuilder).nodes "10.0.0.3") := by
  have h := (combined_mode_node_sizing exampleCombinedBuilder (by simp [exampleCombinedBuilder])).2
  refine h "10.0.0.1" "10.0.0.3" ?_ ?_ ?_
  · simp [build, buildStep, _add_node_combined, _add_edge, exampleCombinedBuilder, dictSet]
  · simp [build, buildStep, _add_node_combined, _add_edge, exampleCombinedBuilder, dictSet]
  · simp [nodeStats, exampleCombinedBuilder]

/-! ## C4, C5 — the configuration overlay -/

theorem dictGet_dictSet {κ α : Type} [DecidableEq κ] (d : List (κ × α)) (k : κ) (v : α)
    (k' : κ) : dictGet (dictSet d k v) k' = if k = k' then some v else dictGet d k' := by
  induction d with
  | nil => simp [dictSet, dictGet]
  | cons q rest ih =>
    obtain ⟨k2, v2⟩ := q
    by_cases h2 : k2 = k
    · subst h2
      simp only [dictSet, if_pos rfl, dictGet]
      by_cases hk : k2 = k' <;> simp [hk]
    · simp only [dictSet, if_neg h2, dictGet]
      by_cases hk : k2 = k'
      · subst hk
        simp [show ¬ k = k2 from fun hh => h2 hh.symm]
      · simp [hk, ih]

theorem mulRangeKey_get_other (key : String) (f : ℚ → ℚ) (c : TopDict) (k : String)
    (hk : ¬ key = k) : dictGet (mulRangeKey key f c) k = dictGet c k := by
  rcases h : dictGet c key with - | tv
  · simp [mulRangeKey, h]
  · cases tv <;> simp [mulRangeKey, h, dictGet_dictSet, hk]

theorem mulRangeKey_get_self (key : String) (f : ℚ → ℚ) (c : TopDict) (l : List ℚ)
    (h : dictGet c key = some (.numList l)) :
    dictGet (mulRangeKey key f c) key = some (.numList (l.map f)) := by
  simp [mulRangeKey, h, dictGet_dictSet]

theorem stepPresetOverride_none (g : GlobalConfig) (preset c : TopDict)
    (hp : g.presets = none) : stepPresetOverride g preset c = c := by
  simp [stepPresetOverride, hp]

theorem stepSection_fst_get (key : String) (gs : Option Sect) (c : TopDict) (h : Heap)
    (k : String) (hk : ¬ key = k) :
    dictGet (stepSection key gs c h).1 k = dictGet c k := by
  rcases gs with - | sect
  · rfl
  · rcases hg : dictGet c key with - | tv
    · simp [stepSection, hg, dictGet_dictSet, hk, Heap.alloc]
    · cases tv <;> simp [stepSection, hg]

theorem stepCanvas_fst_get (g : GlobalConfig) (c : TopDict) (h : Heap) (k : String)
    (hk : ¬ "theme" = k) : dictGet (stepCanvas g c h).1 k = dictGet c k := by
  rcases hc : g.canvas with - | cv
  · simp [stepCanvas, hc]
  · rcases hg : dictGet c "theme" with - | tv
    · simp [stepCanvas, hc, hg, dictGet_dictSet, hk, Heap.alloc]
    · cases tv <;> simp [stepCanvas, hc, hg]

theorem fillIfAbsent_get_other (key : String) (ov : Option TopVal) (c : TopDict)
    (k : String) (hk : ¬ key = k) :
    dictGet (fillIfAbsent key ov c) k = dictGet c k := by
  rcases ov with - | v
  · rfl
  · rcases hg : dictGet c key with - | x
    · simp [fillIfAbsent, hg, dictGet_dictSet, hk]
    · simp [fillIfAbsent, hg]

theorem fillIfAbsent_get_present (key : String) (ov : Option TopVal) (c : TopDict)
    (x : TopVal) (h : dictGet c key = some x) :
    dictGet (fillIfAbsent key ov c) key = some x := by
  rcases ov with - | v
  · exact h
  · simp [fillIfAbsent, h]

theorem setIfPresent_get_other (key : String) (ov : Option TopVal) (c : TopDict)
    (k : String) (hk : ¬ key = k) :
    dictGet (setIfPresent key ov c) k = dictGet c k := by
  rcases ov with - | v
  · rfl
  · simp [setIfPresent, dictGet_dictSet, hk]

theorem stepNodeSettings_get_present (g : GlobalConfig) (c : TopDict) (x : TopVal)
    (h : dictGet c "node_size_range" = some x) :
    dictGet (stepNodeSettings g c) "node_size_range" = some x := by
  rcases hn : g.node_settings with - | ns
  · simp [stepNodeSettings, hn, h]
  · simp only [stepNodeSettings, hn]
    split_ifs with he
    · exact fillIfAbsent_get_present _ _ _ _ h
    · exact h

theorem stepNodeSettings_get_other (g : GlobalConfig) (c : TopDict) (k : String)
    (hk : ¬ "node_size_range" = k) :
    dictGet (stepNodeSettings g c) k = dictGet c k := by
  rcases hn : g.node_settings with - | ns
  · simp [stepNodeSettings, hn]
  · simp only [stepNodeSettings, hn]
    split_ifs with he
    · exact fillIfAbsent_get_other _ _ _ _ hk
    · rfl

theorem stepEdgeSettings_get_other (g : GlobalConfig) (c : TopDict) (k : String)
    (h1 : ¬ "edge_width_range" = k) (h2 : ¬ "edge_opacity" = k)
    (h3 : ¬ "scale_arrows_with_edges" = k) (h4 : ¬ "base_arrow_scale" = k) :
    dictGet (stepEdgeSettings g c) k = dictGet c k := by
  rcases he : g.edge_settings with - | es
  · simp [stepEdgeSettings, he]
  · simp only [stepEdgeSettings, he]
    split_ifs with hne
    · rw [setIfPresent_get_other _ _ _ _ h4, setIfPresent_get_other _ _ _ _ h3,
        fillIfAbsent_get_other _ _ _ _ h2, fillIfAbsent_get_other _ _ _ _ h1]
    · rfl

theorem stepEdgeSettings_get_edge_width (g : GlobalConfig) (c : TopDict) (x : TopVal)
    (h : dictGet c "edge_width_range" = some x) :
    dictGet (stepEdgeSettings g c) "edge_width_range" = some x := by
  rcases he : g.edge_settings with - | es
  · simp [stepEdgeSettings, he, h]
  · simp only [stepEdgeSettings, he]
    split_ifs with hne
    · rw [setIfPresent_get_other _ _ _ _ (by decide), setIfPresent_get_other _ _ _ _ (by decide),
        fillIfAbsent_get_other _ _ _ _ (by decide)]
      exact fillIfAbsent_get_present _ _ _ _ h
    · exact h

/-- C5: apart from per-preset override bundles (a later overlay stage that
may redefine the keys), the overlay multiplies every `node_size_range` and
`target_size_range` bound by the node-size multiplier clamped to ≥ 1, and
every `edge_width_range` bound by the edge-width multiplier with no clamp;
concretely, multiplier 2.0 on `[3,15]` gives `[6,30]` and 0.1 gives
`[1, 1.5]`. -/
theorem overlay_scales_ranges (g : GlobalConfig) (preset : TopDict) (h : Heap)
    (hp : g.presets = none) :
    (∀ l, dictGet preset "node_size_range" = some (.numList l) →
      dictGet (apply_to_preset g preset h).1 "node_size_range" =
        some (.numList (l.map fun size => max 1 (size * g.get_node_size_multiplier)))) ∧
    (∀ l, dictGet preset "target_size_range" = some (.numList l) →
      dictGet (apply_to_preset g preset h).1 "target_size_range" =
        some (.numList (l.map fun size => max 1 (size * g.get_node_size_multiplier)))) ∧
    (∀ l, dictGet preset "edge_width_range" = some (.numList l) →
      dictGet (apply_to_preset g preset h).1 "edge_width_range" =
        some (.numList (l.map fun width => width * g.get_edge_width_multiplier))) ∧
    dictGet (apply_to_preset overlayDouble intensityPreset initHeap).1 "node_size_range" =
      some (.numList [6, 30]) ∧
    dictGet (apply_to_preset overlayTenth intensityPreset initHeap).1 "node_size_range" =
      some (.numList [1, 1.5]) := by
  have main1 : ∀ (g' : GlobalConfig) (preset' : TopDict) (h' : Heap),
      g'.presets = none → ∀ l, dictGet preset' "node_size_range" = some (.numList l) →
      dictGet (apply_to_preset g' preset' h').1 "node_size_range" =
        some (.numList (l.map fun size => max 1 (size * g'.get_node_size_multiplier))) := by
    intro g' preset' h' hp' l hl
    simp only [apply_to_preset]
    rw [stepSection_fst_get _ _ _ _ _ (by decide),
      stepEdgeSettings_get_other _ _ _ (by decide) (by decide) (by decide) (by decide)]
    apply stepNodeSettings_get_present
    rw [stepCanvas_fst_get _ _ _ _ (by decide),
      stepSection_fst_get _ _ _ _ _ (by decide),
      stepSection_fst_get _ _ _ _ _ (by decide),
      stepPresetOverride_none _ _ _ hp',
      stepEdgeMult, mulRangeKey_get_other _ _ _ _ (by decide),
      stepNodeMult, mulRangeKey_get_other _ _ _ _ (by decide)]
    exact mulRangeKey_get_self _ _ _ _ hl
  refine ⟨main1 g preset h hp, ?_, ?_, ?_, ?_⟩
  · intro l hl
    simp only [apply_to_preset]
    rw [stepSection_fst_get _ _ _ _ _ (by decide),
      stepEdgeSettings_get_other _ _ _ (by decide) (by decide) (by decide) (by decide),
      stepNodeSettings_get_other _ _ _ (by decide),
      stepCanvas_fst_get _ _ _ _ (by decide),
      stepSection_fst_get _ _ _ _ _ (by decide),
      stepSection_fst_get _ _ _ _ _ (by decide),
      stepPresetOverride_none _ _ _ hp,
      stepEdgeMult, mulRangeKey_get_other _ _ _ _ (by decide),
      stepNodeMult]
    apply mulRangeKey_get_self
    rw [mulRangeKey_get_other _ _ _ _ (by decide)]
    exact hl
  · intro l hl
    simp only [apply_to_preset]
    rw [stepSection_fst_get _ _ _ _ _ (by decide)]
    apply stepEdgeSettings_get_edge_width
    rw [stepNodeSettings_get_other _ _ _ (by decide),
      stepCanvas_fst_get _ _ _ _ (by decide),
      stepSection_fst_get _ _ _ _ _ (by decide),
      stepSection_fst_get _ _ _ _ _ (by decide),
      stepPresetOverride_none _ _ _ hp,
      stepEdgeMult]
    apply mulRangeKey_get_self
    rw [stepNodeMult, mulRangeKey_get_other _ _ _ _ (by decide),
      mulRangeKey_get_other _ _ _ _ (by decide)]
    exact hl
  · have h4 := main1 overlayDouble intensityPreset initHeap rfl [3, 15]
      (by simp [intensityPreset, dictGet])
    rw [h4]
    simp only [overlayDouble, GlobalConfig.get_node_size_multiplier, Option.getD_some,
      List.map_cons, List.map_nil]
    have e1 : max (1:ℚ) (3 * 2) = 6 := by
      rw [max_eq_right (by norm_num : (1:ℚ) ≤ 3 * 2)]; norm_num
    have e2 : max (1:ℚ) (15 * 2) = 30 := by
      rw [max_eq_right (by norm_num : (1:ℚ) ≤ 15 * 2)]; norm_num
    rw [e1, e2]
  · have h5 := main1 overlayTenth intensityPreset initHeap rfl [3, 15]
      (by simp [intensityPreset, dictGet])
    rw [h5]
    simp only [overlayTenth, GlobalConfig.get_node_size_multiplier, Option.getD_some,
      List.map_cons, List.map_nil]
    have e1 : max (1:ℚ) (3 * 0.1) = 1 := max_eq_left (by norm_num)
    have e2 : max (1:ℚ) (15 * 0.1) = 1.5 := by
      rw [max_eq_right (by norm_num : (1:ℚ) ≤ 15 * 0.1)]; norm_num
    rw [e1, e2]

theorem overlay_scales_ranges_witness :
    dictGet (apply_to_preset overlayDouble intensityPreset initHeap).1 "node_size_range" =
      some (.numList [6, 30]) :=
  (overlay_scales_ranges overlayDouble intensityPreset initHeap rfl).2.2.2.1

theorem stepSection_gs_none (key : String) (c : TopDict) (h : Heap) :
    stepSection key none c h = (c, h) := rfl

theorem stepSection_snd_ref (key : String) (sect : Sect) (c : TopDict) (h : Heap) (a : ℕ)
    (hc : dictGet c key = some (.ref a)) :
    stepSection key (some sect) c h = (c, h.updateAt a sect) := by
  simp [stepSection, hc]

theorem stepCanvas_none (g : GlobalConfig) (c : TopDict) (h : Heap) (hc : g.canvas = none) :
    stepCanvas g c h = (c, h) := by
  simp [stepCanvas, hc]

/-- C4 is violated by the code: `get_preset` and `apply_to_preset` only make
shallow copies, so the registry entry's nested `physics` dict (heap cell 1,
still referenced by `PRESETS['intensity']`) is updated **in place** when the
global settings carry a `physics` section — `central_gravity` flips from the
registry's 0.8 to the override 0.9 inside the registry itself. -/
theorem apply_to_preset_mutates_registry_physics :
    get_preset "intensity" = .ok intensityPreset ∧
    dictGet intensityPreset "physics" = some (.ref 1) ∧
    dictGet (initHeap.get 1) "central_gravity" = some (.num 0.8) ∧
    dictGet ((apply_to_preset overlayPhysicsGlobal intensityPreset initHeap).2.get 1)
      "central_gravity" = some (.num 0.9) := by
  refine ⟨?_, ?_, ?_, ?_⟩
  · simp [get_preset, PRESETS, dictGet]
  · simp [intensityPreset, dictGet]
  · simp [initHeap, Heap.get, dictGet]
  · have hphys : dictGet (stepPresetOverride overlayPhysicsGlobal intensityPreset
        (stepEdgeMult overlayPhysicsGlobal.get_edge_width_multiplier
          (stepNodeMult overlayPhysicsGlobal.get_node_size_multiplier intensityPreset)))
        "physics" = some (.ref 1) := by
      rw [stepPresetOverride_none _ _ _ rfl,
        stepEdgeMult, mulRangeKey_get_other _ _ _ _ (by decide),
        stepNodeMult, mulRangeKey_get_other _ _ _ _ (by decide),
        mulRangeKey_get_other _ _ _ _ (by decide)]
      simp [intensityPreset, dictGet]
    have ht : overlayPhysicsGlobal.theme = none := rfl
    have hcv : overlayPhysicsGlobal.canvas = none := rfl
    have hhl : overlayPhysicsGlobal.hostname_labels = none := rfl
    have hph : overlayPhysicsGlobal.physics = some [("central_gravity", Val.num 0.9)] := rfl
    simp only [apply_to_preset, ht, hcv, hhl, hph]
    rw [stepSection_snd_ref _ _ _ _ 1 hphys]
    simp only [stepSection_gs_none]
    rw [stepCanvas_none _ _ _ hcv]
    simp [Heap.updateAt, Heap.set, Heap.get, initHeap, dictUpdate, dictSet, dictGet]

end FW
